import Mathlib

/-!
# Verification of the `sqld` metadata-driven SQL validation/construction engine

This file is a shallow embedding, in Lean 4, of the core logic of the `sqld`
Go package: the type-compatibility checkers, the request validator, the
structured query/update builders, the model registry, the raw-query pipeline
(placeholder extraction, parameter validation, placeholder rewriting,
SQL-shape validation) and the pagination helper.

Modelling conventions:

* Go `reflect.Type` values are modelled by the inductive `GoType`; a possibly
  nil `reflect.Type` is `Option GoType`.
* Go runtime values (`interface{}`) are modelled by `GoVal`, which records
  exactly the information the validators inspect: the value's dynamic type,
  and — for slices — the element type and, for `[]interface{}`, the dynamic
  types of the elements.  A Go `nil` interface value is `Option GoVal`'s
  `none`.
* Go maps are modelled as association lists; insertion conses at the front so
  `List.lookup` (first match) realises Go's insert-overwrites semantics.
* Raw SQL query text is modelled as `List Char`; identifiers (tags, parameter
  names, field names) as `String`.
* Fallible Go functions returning `error` are modelled with `Except String`.
* External boundaries (the PostgreSQL parser used by `validateSQLSyntax`, the
  database driver) enter as explicit function parameters or as the input of
  the modelled function.
-/

set_option autoImplicit false

namespace Sqld

/-! ## Go types (`reflect.Type` model)

Only the type structure that the `sqld` validators inspect is represented:
the numeric / string / bool kinds, `time.Time`, other struct types, struct
types from the `pgtype` package (distinguished because `Registry.Register`
checks the package path), the empty interface, pointers, slices, and named
string-kind types (e.g. string-based enums). -/

inductive GoType where
  | int | int8 | int16 | int32 | int64
  | uint | uint8 | uint16 | uint32 | uint64
  | float32 | float64
  | string
  | bool
  /-- the struct type `time.Time` -/
  | timeT
  /-- any other struct type, identified by name -/
  | structT (name : String)
  /-- a struct type from package `github.com/jackc/pgx/v5/pgtype` -/
  | pgtypeT (name : String)
  /-- `interface{}` (empty interface, zero methods) -/
  | anyInterface
  | ptr (elem : GoType)
  | slice (elem : GoType)
  /-- a named defined type whose underlying kind is `string` -/
  | namedStr (name : String)
deriving DecidableEq, Repr

namespace GoType

/-- `reflect.Kind` test: is the kind one of
`Int, Int8, Int16, Int32, Int64, Uint, Uint8, Uint16, Uint32, Uint64,
Float32, Float64`? -/
def isNumericKind : GoType → Bool
  | .int | .int8 | .int16 | .int32 | .int64
  | .uint | .uint8 | .uint16 | .uint32 | .uint64
  | .float32 | .float64 => true
  | _ => false

/-- `reflect.Kind` test: `Kind() == reflect.String`. -/
def isStringKind : GoType → Bool
  | .string => true
  | .namedStr _ => true
  | _ => false

/-- `reflect.Kind` test: `Kind() == reflect.Bool`. -/
def isBoolKind : GoType → Bool
  | .bool => true
  | _ => false

/-- `reflect.Type.String()`.  Only the value for `time.Time` matters to the
modelled code (`isOperatorCompatibleWithType` compares against the literal
`"time.Time"`); other cases return a best-effort rendering. -/
def typeString : GoType → String
  | .int => "int" | .int8 => "int8" | .int16 => "int16"
  | .int32 => "int32" | .int64 => "int64"
  | .uint => "uint" | .uint8 => "uint8" | .uint16 => "uint16"
  | .uint32 => "uint32" | .uint64 => "uint64"
  | .float32 => "float32" | .float64 => "float64"
  | .string => "string"
  | .bool => "bool"
  | .timeT => "time.Time"
  | .structT n => n
  | .pgtypeT n => "pgtype." ++ n
  | .anyInterface => "interface {}"
  | .ptr e => "*" ++ e.typeString
  | .slice e => "[]" ++ e.typeString
  | .namedStr n => n

/-- `reflect.Type.PkgPath()`, to the extent `Register` consults it. -/
def pkgPath : GoType → String
  | .pgtypeT _ => "github.com/jackc/pgx/v5/pgtype"
  | .timeT => "time"
  | _ => ""

/-- Strip all pointer layers (the `for Kind() == Pointer { Elem() }` loops in
`AreTypesCompatible`). -/
def stripPtr : GoType → GoType
  | .ptr e => stripPtr e
  | t => t

end GoType

/-- Print a possibly-nil `reflect.Type` the way `typeNameOrNil` does. -/
def typeNameOrNil : Option GoType → String
  | none => "nil"
  | some t => t.typeString

/-! ## Type compatibility checkers -/

/-- `isTypeCompatible` from `safequery.go`: exact `reflect.Type` identity,
except that an `interface{}` expected type accepts anything, and a nil type
on either side is incompatible. -/
def isTypeCompatible (valType expectedType : Option GoType) : Bool :=
  match valType, expectedType with
  | none, _ => false
  | _, none => false
  | some v, some e =>
    if e = GoType.anyInterface then true
    else v = e

/-- `IsNumericType` from the type-compatibility file: integer or float kind. -/
def IsNumericType (t : GoType) : Bool := t.isNumericKind

/-- `IsTimeType` from the type-compatibility file: exactly `time.Time`. -/
def IsTimeType (t : GoType) : Bool := t = GoType.timeT

/-- `AreTypesCompatible` from the type-compatibility file: nil types are
incompatible; an `interface{}` field type accepts anything; otherwise strip
pointers from both sides and accept exact identity or agreement of the
numeric / string / time / bool families. -/
def AreTypesCompatible (fieldType valueType : Option GoType) : Bool :=
  match fieldType, valueType with
  | none, _ => false
  | _, none => false
  | some f, some v =>
    if f = GoType.anyInterface then true
    else
      let f := f.stripPtr
      let v := v.stripPtr
      if f = v then true
      else if IsNumericType f && IsNumericType v then true
      else if f.isStringKind && v.isStringKind then true
      else if IsTimeType f && IsTimeType v then true
      else if f.isBoolKind && v.isBoolKind then true
      else false

/-! ## Go runtime values

`GoVal` records what the validators can observe of an `interface{}` value via
reflection.  The representation invariant is that `prim t` is used only for
non-slice values; slices are represented by `typedSlice`/`anySlice` so that
the element inspection done for `IN`/`NOT IN` values is expressible. -/

inductive GoVal where
  /-- a non-slice value whose dynamic type is `t` -/
  | prim (t : GoType)
  /-- a typed slice `[]elem` (elements are never inspected individually) -/
  | typedSlice (elem : GoType)
  /-- a `[]interface{}` whose elements have the given dynamic types
  (`none` = a nil element) -/
  | anySlice (elems : List (Option GoType))
deriving DecidableEq, Repr

/-- `reflect.TypeOf` on a (non-nil) interface value. -/
def GoVal.typeOf : GoVal → GoType
  | .prim t => t
  | .typedSlice e => GoType.slice e
  | .anySlice _ => GoType.slice GoType.anyInterface

/-- `reflect.TypeOf` on a possibly-nil interface value (nil ↦ nil type). -/
def typeOfVal : Option GoVal → Option GoType
  | none => none
  | some v => some v.typeOf

/-! ## Operators (`types.go`)

Go declares `type Operator string` with string constants; the model keeps
operators as strings so that arbitrary (unsupported) operators are
representable. -/

abbrev Operator := String

def OpEqual : Operator := "="
def OpNotEqual : Operator := "!="
def OpGreaterThan : Operator := ">"
def OpLessThan : Operator := "<"
def OpGreaterThanOrEqual : Operator := ">="
def OpLessThanOrEqual : Operator := "<="
def OpLike : Operator := "LIKE"
def OpILike : Operator := "ILIKE"
def OpIn : Operator := "IN"
def OpNotIn : Operator := "NOT IN"
def OpIsNull : Operator := "IS NULL"
def OpIsNotNull : Operator := "IS NOT NULL"

/-- `SelectAll` from `types.go`: the sentinel select entry meaning "all
registered fields". -/
def SelectAll : String := "ALL"

/-! ## Model metadata (`types.go`) -/

/-- `Field` from `types.go` (the variant used by `validator.go` and
`builder.go`, with a normalized type). -/
structure Field where
  /-- DB column name (`Field.Name`) -/
  name : String
  /-- JSON field name (`Field.JSONName`) -/
  jsonName : String
  /-- Go struct field name (`Field.GoFieldName`) -/
  goFieldName : String
  /-- original Go type (`Field.Type`) -/
  typ : GoType
  /-- normalized type for validation (`Field.NormalizedType`) -/
  normalizedType : GoType
deriving DecidableEq, Repr

/-- `ModelMetadata` from `types.go`.  `Fields` is a Go map keyed by JSON
name; modelled as an association list with unique keys looked up by
`List.lookup`. -/
structure ModelMetadata where
  tableName : String
  fields : List (String × Field)
deriving DecidableEq, Repr

/-- `Condition` from `types.go`.  The value is a possibly-nil interface
value. -/
structure Condition where
  field : String
  operator : Operator
  value : Option GoVal
deriving DecidableEq, Repr

/-- `OrderByClause` from `types.go`. -/
structure OrderByClause where
  field : String
  desc : Bool
deriving DecidableEq, Repr

/-- `PaginationRequest` from `types.go` (Go `int` modelled as `Int`). -/
structure PaginationRequest where
  page : Int
  pageSize : Int
deriving DecidableEq, Repr

/-- `QueryRequest` from `types.go`. -/
structure QueryRequest where
  select : List String
  whereC : List Condition
  orderBy : List OrderByClause
  pagination : Option PaginationRequest
  limit : Option Int
  offset : Option Int
deriving DecidableEq, Repr

/-- `UpdateRequest` from `update.go`.  `set` is a Go map keyed by JSON
name. -/
structure UpdateRequest where
  set : List (String × Option GoVal)
  whereC : List Condition
deriving DecidableEq, Repr

/-! ## The validator (`validator.go`) -/

/-- `isValidOperator` from `validator.go`: membership in the closed operator
set. -/
def isValidOperator (op : Operator) : Bool :=
  op = OpEqual || op = OpNotEqual || op = OpGreaterThan || op = OpLessThan ||
  op = OpGreaterThanOrEqual || op = OpLessThanOrEqual || op = OpLike ||
  op = OpILike || op = OpIn || op = OpNotIn || op = OpIsNull || op = OpIsNotNull

/-- `isOperatorCompatibleWithType` from `validator.go`: `=`, `!=`,
`IS [NOT] NULL` and `IN`/`NOT IN` work with every type; the four ordering
operators require a numeric, string, or `time.Time` field; `LIKE`/`ILIKE`
require a string-kind field; everything else is incompatible. -/
def isOperatorCompatibleWithType (op : Operator) (fieldType : GoType) : Bool :=
  if op = OpEqual || op = OpNotEqual || op = OpIsNull || op = OpIsNotNull then
    true
  else if op = OpGreaterThan || op = OpLessThan ||
      op = OpGreaterThanOrEqual || op = OpLessThanOrEqual then
    if fieldType.isNumericKind || fieldType.isStringKind then true
    else fieldType.typeString = "time.Time"
  else if op = OpLike || op = OpILike then
    fieldType.isStringKind
  else if op = OpIn || op = OpNotIn then
    true
  else
    false

/-- The per-element type check that `ValidateQuery`/`ValidateUpdateRequest`
run over a `[]interface{}` value supplied to `IN`/`NOT IN`: each element's
dynamic type must be compatible with the field's normalized type. -/
def checkAnySliceElems (condField : String) (normType : GoType) :
    List (Option GoType) → Except String Unit
  | [] => .ok ()
  | elemT :: rest =>
    if AreTypesCompatible (some normType) elemT then
      checkAnySliceElems condField normType rest
    else
      .error ("invalid type for field " ++ condField ++ ": expected " ++
        normType.typeString ++ ", got " ++ typeNameOrNil elemT)

/-- The value-type portion of a single where-condition check (the body after
the operator checks in `ValidateQuery`): null operators demand a nil value;
a nil value is otherwise accepted unchecked; `IN`/`NOT IN` demand a slice and
check element types; every other operator checks the value's type against
the field's normalized type. -/
def checkCondValue (cond : Condition) (field : Field) : Except String Unit :=
  if cond.operator = OpIsNull || cond.operator = OpIsNotNull then
    if cond.value ≠ none then
      .error "value must be nil for IS NULL/IS NOT NULL operators"
    else .ok ()
  else
    match cond.value with
    | none => .ok ()
    | some v =>
      if cond.operator = OpIn || cond.operator = OpNotIn then
        match v with
        | .prim _ => .error "value for IN/NOT IN must be a slice"
        | .anySlice elems =>
          checkAnySliceElems cond.field field.normalizedType elems
        | .typedSlice elemT =>
          if AreTypesCompatible (some field.normalizedType) (some elemT) then .ok ()
          else
            .error ("invalid type for field " ++ cond.field ++ ": expected " ++
              field.normalizedType.typeString ++ ", got " ++ elemT.typeString)
      else
        if AreTypesCompatible (some field.normalizedType) (typeOfVal (some v)) then
          .ok ()
        else
          .error ("invalid type for field " ++ cond.field ++ ": expected " ++
            field.normalizedType.typeString ++ ", got " ++ v.typeOf.typeString)

/-- One iteration of `ValidateQuery`'s where-condition loop: resolve the
field, check the operator is in the closed set, check operator/type
compatibility, then check the value. -/
def checkCondition (metadata : ModelMetadata) (cond : Condition) :
    Except String Unit :=
  match metadata.fields.lookup cond.field with
  | none => .error ("invalid field in where clause: " ++ cond.field)
  | some field =>
    if ¬ isValidOperator cond.operator then
      .error ("unsupported operator: " ++ cond.operator)
    else if ¬ isOperatorCompatibleWithType cond.operator field.normalizedType then
      .error ("operator " ++ cond.operator ++ " is not compatible with field type " ++
        field.normalizedType.typeString)
    else
      checkCondValue cond field

/-- The select-field loop of `ValidateQuery`: every entry must be a key of
the metadata field map. -/
def checkSelectFields (metadata : ModelMetadata) :
    List String → Except String Unit
  | [] => .ok ()
  | f :: fs =>
    match metadata.fields.lookup f with
    | none => .error ("invalid field in select: " ++ f)
    | some _ => checkSelectFields metadata fs

/-- The where loop of `ValidateQuery` / `ValidateUpdateRequest`. -/
def checkWhereList (metadata : ModelMetadata) :
    List Condition → Except String Unit
  | [] => .ok ()
  | c :: cs => do
    checkCondition metadata c
    checkWhereList metadata cs

/-- The order-by loop of `ValidateQuery`. -/
def checkOrderBy (metadata : ModelMetadata) :
    List OrderByClause → Except String Unit
  | [] => .ok ()
  | ob :: obs =>
    match metadata.fields.lookup ob.field with
    | none => .error ("invalid field in order by clause: " ++ ob.field)
    | some _ => checkOrderBy metadata obs

/-- `BasicValidator.ValidateQuery` from `validator.go`. -/
def ValidateQuery (req : QueryRequest) (metadata : ModelMetadata) :
    Except String Unit := do
  if req.select.isEmpty then
    throw "select fields cannot be empty"
  checkSelectFields metadata req.select
  checkWhereList metadata req.whereC
  checkOrderBy metadata req.orderBy
  match req.limit with
  | some l => if l < 0 then throw "limit must be non-negative" else pure ()
  | none => pure ()
  match req.offset with
  | some o => if o < 0 then throw "offset must be non-negative" else pure ()
  | none => pure ()

/-- The SET loop of `ValidateUpdateRequest`: each key must resolve and a
non-nil value's type must be compatible with the field's normalized type. -/
def checkUpdateSet (metadata : ModelMetadata) :
    List (String × Option GoVal) → Except String Unit
  | [] => .ok ()
  | (jsonName, value) :: rest =>
    match metadata.fields.lookup jsonName with
    | none => .error ("invalid field in update set: " ++ jsonName)
    | some field =>
      match value with
      | none => checkUpdateSet metadata rest
      | some v =>
        if AreTypesCompatible (some field.normalizedType) (some v.typeOf) then
          checkUpdateSet metadata rest
        else
          .error ("type mismatch for field " ++ jsonName ++ ": expected " ++
            field.normalizedType.typeString ++ ", got " ++ v.typeOf.typeString)

/-- `BasicValidator.ValidateUpdateRequest` from `validator.go`: non-empty
SET with field/type checks, then mandatory non-empty WHERE with the same
per-condition rules as `ValidateQuery`. -/
def ValidateUpdateRequest (req : UpdateRequest) (metadata : ModelMetadata) :
    Except String Unit := do
  if req.set.isEmpty then
    throw "update request must include at least one field to update"
  checkUpdateSet metadata req.set
  if req.whereC.isEmpty then
    throw "update request must include where conditions"
  checkWhereList metadata req.whereC

/-! ## The structured builders (`builder.go`, `update.go`)

The external serializer (squirrel) is modelled as an inert AST: each
`squirrel.Eq`/`NotEq`/`Gt`/… call becomes a constructor.  Only construction
is modelled; rendering to SQL text is the out-of-scope serializer. -/

/-- `OpAny` (array membership operator used by `builder.go`'s switch).  Its
constant declaration is not part of this snapshot; the string value is
modelled as `"ANY"`. -/
def OpAny : Operator := "ANY"

/-- One squirrel predicate as constructed by the builders' where loops. -/
inductive SqPred where
  /-- `squirrel.Eq{col: v}` -/
  | eqPred (col : String) (v : Option GoVal)
  /-- `squirrel.NotEq{col: v}` -/
  | notEqPred (col : String) (v : Option GoVal)
  /-- `squirrel.Gt{col: v}` -/
  | gtPred (col : String) (v : Option GoVal)
  /-- `squirrel.Lt{col: v}` -/
  | ltPred (col : String) (v : Option GoVal)
  /-- `squirrel.GtOrEq{col: v}` -/
  | gtOrEqPred (col : String) (v : Option GoVal)
  /-- `squirrel.LtOrEq{col: v}` -/
  | ltOrEqPred (col : String) (v : Option GoVal)
  /-- `squirrel.Expr(e, v)` with one bound argument -/
  | exprPred (e : String) (v : Option GoVal)
deriving DecidableEq, Repr

/-- The state of a `squirrel.SelectBuilder` as far as `buildQuery`
populates it. -/
structure SelectBuilderQ where
  columns : List String
  table : String
  wheres : List SqPred
  orderBys : List String
  limit : Option Int
  offset : Option Int
deriving DecidableEq, Repr

/-- One iteration of `buildQuery`'s where switch. -/
def buildWherePred (cond : Condition) (field : Field) :
    Except String SqPred :=
  if cond.operator = OpEqual then .ok (.eqPred field.name cond.value)
  else if cond.operator = OpNotEqual then .ok (.notEqPred field.name cond.value)
  else if cond.operator = OpGreaterThan then .ok (.gtPred field.name cond.value)
  else if cond.operator = OpLessThan then .ok (.ltPred field.name cond.value)
  else if cond.operator = OpGreaterThanOrEqual then
    .ok (.gtOrEqPred field.name cond.value)
  else if cond.operator = OpLessThanOrEqual then
    .ok (.ltOrEqPred field.name cond.value)
  else if cond.operator = OpLike || cond.operator = OpILike then
    .ok (.exprPred (field.name ++ " " ++ cond.operator ++ " ?") cond.value)
  else if cond.operator = OpIn then .ok (.eqPred field.name cond.value)
  else if cond.operator = OpNotIn then .ok (.notEqPred field.name cond.value)
  else if cond.operator = OpIsNull then .ok (.eqPred field.name none)
  else if cond.operator = OpIsNotNull then .ok (.notEqPred field.name none)
  else if cond.operator = OpAny then
    .ok (.exprPred ("? = ANY(" ++ field.name ++ ")") cond.value)
  else .error ("unsupported operator: " ++ cond.operator)

/-- `buildQuery`'s where loop. -/
def buildWhereList (metadata : ModelMetadata) :
    List Condition → Except String (List SqPred)
  | [] => .ok []
  | c :: cs =>
    match metadata.fields.lookup c.field with
    | none => .error ("invalid field in where clause: " ++ c.field)
    | some field => do
      let p ← buildWherePred c field
      let rest ← buildWhereList metadata cs
      .ok (p :: rest)

/-- `buildQuery`'s order-by loop: each entry becomes `"col DESC"` or
`"col ASC"`. -/
def buildOrderByList (metadata : ModelMetadata) :
    List OrderByClause → Except String (List String)
  | [] => .ok []
  | ob :: obs =>
    match metadata.fields.lookup ob.field with
    | none => .error ("invalid field in order by clause: " ++ ob.field)
    | some field => do
      let rest ← buildOrderByList metadata obs
      .ok ((field.name ++ (if ob.desc then " DESC" else " ASC")) :: rest)

/-- The select-list resolution of `buildQuery`: the single-entry `SelectAll`
sentinel expands to all registered column names (Go iterates the field map;
the model iterates the association list in order), otherwise each JSON name
must resolve to a field and is replaced by its column name. -/
def resolveSelectFields (metadata : ModelMetadata) (select : List String) :
    Except String (List String) :=
  if select = [SelectAll] then
    .ok (metadata.fields.map (fun kv => kv.2.name))
  else
    go select
where
  go : List String → Except String (List String)
    | [] => .ok []
    | jsonName :: rest =>
      match metadata.fields.lookup jsonName with
      | none => .error ("invalid field in select: " ++ jsonName)
      | some field => do
        let r ← go rest
        .ok (field.name :: r)

/-- `buildQuery` from `builder.go` (the variant handling the `SelectAll`
sentinel).  The model metadata and the model's `TableName()` are passed in
(Go obtains both from the registry / the type parameter). -/
def buildQuery (metadata : ModelMetadata) (tableName : String)
    (req : QueryRequest) : Except String SelectBuilderQ := do
  if req.select.isEmpty then
    throw "select fields cannot be empty"
  let selectFields ← resolveSelectFields metadata req.select
  let wheres ← buildWhereList metadata req.whereC
  let orderBys ← buildOrderByList metadata req.orderBy
  let limit ← match req.limit with
    | some l =>
      if l < 0 then throw "limit must be non-negative" else pure (some l)
    | none => pure none
  let offset ← match req.offset with
    | some o =>
      if o < 0 then throw "offset must be non-negative" else pure (some o)
    | none => pure none
  pure { columns := selectFields, table := tableName, wheres := wheres,
         orderBys := orderBys, limit := limit, offset := offset }

/-- The state of a `squirrel.UpdateBuilder` as far as `buildUpdateQuery`
populates it. -/
structure UpdateBuilderQ where
  table : String
  sets : List (String × Option GoVal)
  wheres : List SqPred
deriving DecidableEq, Repr

/-- The SET loop of `buildUpdateQuery`: resolve each JSON name, check a
non-nil value's type against the field's *declared* type (`field.Type`, not
the normalized type), and emit one assignment. -/
def buildUpdateSet (metadata : ModelMetadata) :
    List (String × Option GoVal) → Except String (List (String × Option GoVal))
  | [] => .ok []
  | (jsonName, value) :: rest =>
    match metadata.fields.lookup jsonName with
    | none => .error ("invalid field in update set: " ++ jsonName)
    | some field =>
      if value ≠ none && ¬ AreTypesCompatible (some field.typ) (typeOfVal value) then
        .error ("type mismatch for field " ++ jsonName ++ ": expected " ++
          field.typ.typeString ++ ", got " ++ typeNameOrNil (typeOfVal value))
      else do
        let r ← buildUpdateSet metadata rest
        .ok ((field.name, value) :: r)

/-- One iteration of `buildUpdateQuery`'s where loop: resolve the field,
check a non-nil value's type against the declared type, then the operator
switch (which, unlike `buildQuery`'s, has no `LIKE`/`ILIKE`/`ANY` cases). -/
def buildUpdateWherePred (metadata : ModelMetadata) (cond : Condition) :
    Except String SqPred :=
  match metadata.fields.lookup cond.field with
  | none => .error ("invalid field in update where: " ++ cond.field)
  | some field =>
    if cond.value ≠ none &&
        ¬ AreTypesCompatible (some field.typ) (typeOfVal cond.value) then
      .error ("type mismatch for where condition " ++ cond.field ++ ": expected " ++
        field.typ.typeString ++ ", got " ++ typeNameOrNil (typeOfVal cond.value))
    else if cond.operator = OpEqual then .ok (.eqPred field.name cond.value)
    else if cond.operator = OpNotEqual then .ok (.notEqPred field.name cond.value)
    else if cond.operator = OpGreaterThan then .ok (.gtPred field.name cond.value)
    else if cond.operator = OpLessThan then .ok (.ltPred field.name cond.value)
    else if cond.operator = OpGreaterThanOrEqual then
      .ok (.gtOrEqPred field.name cond.value)
    else if cond.operator = OpLessThanOrEqual then
      .ok (.ltOrEqPred field.name cond.value)
    else if cond.operator = OpIn then .ok (.eqPred field.name cond.value)
    else if cond.operator = OpNotIn then .ok (.notEqPred field.name cond.value)
    else if cond.operator = OpIsNull then .ok (.eqPred field.name none)
    else if cond.operator = OpIsNotNull then .ok (.notEqPred field.name none)
    else .error ("unsupported operator: " ++ cond.operator)

/-- `buildUpdateQuery`'s where loop. -/
def buildUpdateWhereList (metadata : ModelMetadata) :
    List Condition → Except String (List SqPred)
  | [] => .ok []
  | c :: cs => do
    let p ← buildUpdateWherePred metadata c
    let rest ← buildUpdateWhereList metadata cs
    .ok (p :: rest)

/-- `buildUpdateQuery` from `update.go`: reject an empty SET map, process
SET entries, reject an empty WHERE list, process WHERE conditions. -/
def buildUpdateQuery (metadata : ModelMetadata) (tableName : String)
    (req : UpdateRequest) : Except String UpdateBuilderQ := do
  if req.set.isEmpty then
    throw "update request must include at least one field to update"
  let sets ← buildUpdateSet metadata req.set
  if req.whereC.isEmpty then
    throw "update request must include where conditions"
  let wheres ← buildUpdateWhereList metadata req.whereC
  pure { table := tableName, sets := sets, wheres := wheres }

/-- `ExecuteUpdate` from `update.go`, cut at the database boundary: the
query is built, and only on success is the (abstract) driver `exec`
invoked with the built statement.  SQL text generation (`ToSql`) and driver
dispatch live behind `exec`. -/
def ExecuteUpdate (exec : UpdateBuilderQ → Except String Int)
    (metadata : ModelMetadata) (tableName : String) (req : UpdateRequest) :
    Except String Int :=
  match buildUpdateQuery metadata tableName req with
  | .error e => .error ("failed to build update query: " ++ e)
  | .ok builder => exec builder

/-! ## The model registry (`registry.go`)

`registry.go`'s `Field` literal only populates `Name`, `JSONName` and
`Type`, so the registry model carries its own field record.  The
`converters` and `scanners` maps hold functions; the model tracks their key
sets, which is all the registration logic observes (`Register` consults
`r.converters` only through an `if _, ok := …; !ok` presence test). -/

/-- The metadata field record as `registry.go`'s `Register` constructs it. -/
structure RField where
  name : String
  jsonName : String
  typ : GoType
deriving DecidableEq, Repr

/-- `ModelMetadata` as stored by `registry.go` (same shape, registry-built
field records). -/
structure RModelMetadata where
  tableName : String
  fields : List (String × RField)
deriving DecidableEq, Repr

/-- One struct field of a Go record type, as reflection presents it to
`Register` (name, `db` tag, `json` tag — `""` models an absent tag — and
type). -/
structure StructField where
  name : String
  dbTag : String
  jsonTag : String
  typ : GoType
deriving DecidableEq, Repr

/-- A Go record type (`reflect.Type` of a model struct): identity plus its
field list. -/
structure StructType where
  name : String
  fields : List StructField
deriving DecidableEq, Repr

/-- The registry's mutable state: the models map plus the key sets of the
scanners and converters maps. -/
structure Registry where
  models : List (StructType × RModelMetadata)
  scanners : List GoType
  converters : List GoType
deriving DecidableEq, Repr

/-- The field-scanning loop of `Registry.Register`: reject a field missing
its `db` or `json` tag; register an auto-converter for any not-yet-seen
`pgtype` field type (a side effect on `r.converters` that happens *during*
the scan); accumulate the metadata fields.  Returns the built field map (or
the error) together with the updated converter key set. -/
def scanRegisterFields (converters : List GoType) :
    List StructField → List (String × RField) →
    Except String (List (String × RField)) × List GoType
  | [], acc => (.ok acc, converters)
  | f :: fs, acc =>
    if f.dbTag = "" then
      (.error ("field \"" ++ f.name ++ "\" missing required db tag"), converters)
    else if f.jsonTag = "" then
      (.error ("field \"" ++ f.name ++ "\" missing required json tag"), converters)
    else
      let converters' :=
        if f.typ.pkgPath = "github.com/jackc/pgx/v5/pgtype" &&
            ¬ converters.contains f.typ then
          f.typ :: converters
        else converters
      scanRegisterFields converters' fs
        ((f.jsonTag, { name := f.dbTag, jsonName := f.jsonTag, typ := f.typ }) :: acc)

/-- `Registry.Register` from `registry.go`: error if the type is already
registered; otherwise scan the fields (possibly mutating the converters
map), and only on a fully successful scan commit the new model metadata.
`tableName` is the result of the model's `TableName()` method. -/
def Registry.registerModel (r : Registry) (t : StructType) (tableName : String) :
    Except String Unit × Registry :=
  if (r.models.lookup t).isSome then
    (.error ("model " ++ t.name ++ " already registered"), r)
  else
    match scanRegisterFields r.converters t.fields [] with
    | (.error e, converters') =>
      (.error e, { r with converters := converters' })
    | (.ok flds, converters') =>
      (.ok (),
        { r with
          converters := converters'
          models := (t, { tableName := tableName, fields := flds }) :: r.models })

/-! ## The raw query pipeline (`safequery.go`)

Query text is `List Char`.  The regular expression
`\{\{([a-zA-Z0-9_]+)\}\}` (and the equivalent `{{(\w+)}}` used by
`validateQueryParams`) is realised by a direct left-to-right scanner with
RE2's leftmost, non-overlapping match semantics: at each position either the
full `{{name}}` token matches (greedy maximal name, then the closing
braces), or the scan advances one character. -/

/-- The character class `[a-zA-Z0-9_]` (also `\w`). -/
def isWordChar (c : Char) : Bool :=
  ('a' ≤ c && c ≤ 'z') || ('A' ≤ c && c ≤ 'Z') || ('0' ≤ c && c ≤ '9') || c = '_'

/-- Split off the maximal leading run of word characters. -/
def takeWord : List Char → List Char × List Char
  | [] => ([], [])
  | c :: cs =>
    if isWordChar c then
      let (w, r) := takeWord cs
      (c :: w, r)
    else ([], c :: cs)

theorem takeWord_snd_length : ∀ cs : List Char, (takeWord cs).2.length ≤ cs.length := by
  intro cs
  induction cs with
  | nil => simp [takeWord]
  | cons c cs ih =>
    simp only [takeWord]
    split
    · exact Nat.le_trans ih (Nat.le_succ _)
    · simp

/-- Attempt the pattern `\{\{([a-zA-Z0-9_]+)\}\}` at the head of the text:
two opening braces, a maximal nonempty word, two closing braces.  Returns
the captured name and the text after the match.  (Greedy maximal word plus
mandatory `}}` is equivalent to the regex's behaviour: shortening the word
would put a word character where `}` is required.) -/
def matchPlaceholder : List Char → Option (String × List Char)
  | '{' :: '{' :: rest =>
    match takeWord rest with
    | (c :: w, '}' :: '}' :: r') => some (String.mk (c :: w), r')
    | _ => none
  | _ => none

theorem matchPlaceholder_some_length (l : List Char) (nm : String)
    (r : List Char) (h : matchPlaceholder l = some (nm, r)) :
    r.length < l.length := by
  unfold matchPlaceholder at h
  split at h
  · rename_i rest
    split at h
    · rename_i c w r' hw
      injection h with h1
      injection h1 with h2 h3
      subst h3
      have := takeWord_snd_length rest
      rw [hw] at this
      simp at this
      simp
      omega
    · exact absurd h (by simp)
  · exact absurd h (by simp)

/-- All `{{name}}` matches of the query text in leftmost order,
non-overlapping, with duplicates (`regexp.FindAllStringSubmatch` with the
named-parameter pattern): at each position either the pattern matches and
the scan resumes after the match, or the scan advances one character. -/
def scanPlaceholders : List Char → List String
  | [] => []
  | c :: cs =>
    match h : matchPlaceholder (c :: cs) with
    | some (name, r') => name :: scanPlaceholders r'
    | none => scanPlaceholders cs
termination_by l => l.length
decreasing_by
  · have := matchPlaceholder_some_length _ _ _ h
    simpa using this
  · simp

/-- First-occurrence-order deduplication (the `seen` map loop of
`ExtractNamedPlaceholders`). -/
def dedupFirst (seen : List String) : List String → List String
  | [] => []
  | x :: xs =>
    if seen.contains x then dedupFirst seen xs
    else x :: dedupFirst (x :: seen) xs

/-- `ExtractNamedPlaceholders` from `safequery.go`: the distinct `{{name}}`
identifiers of the query in first-occurrence order.  (The Go function's
error result is always nil and is dropped.) -/
def ExtractNamedPlaceholders (query : List Char) : List String :=
  dedupFirst [] (scanPlaceholders query)

/-- `strings.ReplaceAll`: replace every non-overlapping occurrence of
`target`, leftmost first.  (Go's behaviour for an empty `target` — insert
everywhere — is not modelled; the pipeline only replaces the nonempty
literals `{{name}}`.) -/
def replaceAll (s target repl : List Char) : List Char :=
  match s with
  | [] => []
  | c :: cs =>
    if target ≠ [] ∧ target.isPrefixOf (c :: cs) then
      repl ++ replaceAll ((c :: cs).drop target.length) target repl
    else
      c :: replaceAll cs target repl
termination_by s.length
decreasing_by
  · rename_i h
    have : 1 ≤ target.length := by
      cases target with
      | nil => exact absurd rfl h.1
      | cons t ts => simp
    simp [List.length_drop]
    omega
  · simp

/-- The literal string `{{p}}`. -/
def placeholderLit (p : String) : List Char :=
  '{' :: '{' :: (p.toList ++ ['}', '}'])

/-- The literal string `$k` (`fmt.Sprintf("$%d", k)`). -/
def dollarLit (k : Nat) : List Char := '$' :: Nat.toDigits 10 k

/-- The replacement loop of `ReplaceNamedWithDollarPlaceholders`: the `i`-th
name of `queryParams` (0-based) is replaced by `$ (i+1)`, sequentially. -/
def replaceNamedAux (q : List Char) : List String → Nat → List Char
  | [], _ => q
  | p :: ps, i =>
    replaceNamedAux (replaceAll q (placeholderLit p) (dollarLit (i + 1))) ps (i + 1)

/-- `ReplaceNamedWithDollarPlaceholders` from `safequery.go`.  (The Go
function's error result is always nil and is dropped.) -/
def ReplaceNamedWithDollarPlaceholders (query : List Char)
    (queryParams : List String) : List Char :=
  replaceNamedAux query queryParams 0

/-- The set of parameter names required by the query text, per
`validateQueryParams`'s regex scan (a set; held here as a duplicate-free
list). -/
def requiredParams (query : List Char) : List String :=
  dedupFirst [] (scanPlaceholders query)

/-- `validateQueryParams` from `safequery.go`: every name in the query must
be a key of the parameter map and every key of the parameter map must occur
in the query; both directions are reported. -/
def validateQueryParams (query : List Char)
    (paramMap : List (String × Option GoVal)) : Except String Unit :=
  let required := requiredParams query
  let keys := paramMap.map Prod.fst
  let missingParams := required.filter (fun p => ¬ keys.contains p)
  let extraParams := keys.filter (fun p => ¬ required.contains p)
  if missingParams.isEmpty && extraParams.isEmpty then .ok ()
  else
    .error
      ((if ¬ missingParams.isEmpty then
          "missing required parameters in paramMap: " ++
            String.intercalate " " missingParams
        else "") ++
        (if ¬ extraParams.isEmpty then
          (if ¬ missingParams.isEmpty then "; " else "") ++
            "extra unused parameters in paramMap: " ++
            String.intercalate " " extraParams
        else ""))

/-- The type-map construction of `ValidateMapParamsAgainstStructNamed`: every
field carrying a `db` tag must also carry a `json` tag, and maps its `db`
tag to its type (later fields overwrite; realised by consing onto the
accumulator and first-match lookup). -/
def buildTypeMap : List StructField → List (String × GoType) →
    Except String (List (String × GoType))
  | [], acc => .ok acc
  | f :: fs, acc =>
    if f.dbTag ≠ "" && f.jsonTag = "" then
      .error ("field " ++ f.name ++ " has db tag but missing json tag")
    else
      buildTypeMap fs (if f.dbTag ≠ "" then (f.dbTag, f.typ) :: acc else acc)

/-- The argument-collection loop of `ValidateMapParamsAgainstStructNamed`:
each query parameter needs declared type information; an absent map entry
contributes a nil argument; a present value must be type-compatible
(`isTypeCompatible`, i.e. exact type identity unless the declared type is
`interface{}`). -/
def processQueryParams (typeByName : List (String × GoType))
    (paramMap : List (String × Option GoVal)) :
    List String → Except String (List (Option GoVal))
  | [] => .ok []
  | p :: ps =>
    match typeByName.lookup p with
    | none => .error ("no type info for param " ++ p)
    | some expectedType =>
      match paramMap.lookup p with
      | none => do
        let rest ← processQueryParams typeByName paramMap ps
        .ok (none :: rest)
      | some val =>
        if isTypeCompatible (typeOfVal val) (some expectedType) then do
          let rest ← processQueryParams typeByName paramMap ps
          .ok (val :: rest)
        else
          .error ("parameter " ++ p ++ " type mismatch: got " ++
            typeNameOrNil (typeOfVal val) ++ ", want " ++ expectedType.typeString)

/-- `ValidateMapParamsAgainstStructNamed[P]` from `safequery.go`.  The
parameter-descriptor struct `P` is passed as its reflected shape (the `P is
a struct` check is built into the representation). -/
def ValidateMapParamsAgainstStructNamed (P : StructType)
    (paramMap : List (String × Option GoVal)) (queryParams : List String) :
    Except String (List (Option GoVal)) := do
  let typeByName ← buildTypeMap P.fields []
  processQueryParams typeByName paramMap queryParams

/-- What the pipeline observes of one statement returned by the PostgreSQL
parser: whether `stmt.GetSelectStmt()` is non-nil. -/
inductive SqlStmt where
  | selectStmt
  /-- a non-SELECT statement of the given kind -/
  | otherStmt (kind : String)
deriving DecidableEq, Repr

/-- `validateSQLSyntax` from `safequery.go` as a function of the external
parser's outcome (`pg_query.Parse` is an out-of-scope boundary): a parse
error or an empty statement list is rejected; otherwise the *first*
statement must be a SELECT. -/
def validateSQLSyntax : Except String (List SqlStmt) → Except String Unit
  | .error e => .error ("SQL syntax error: " ++ e)
  | .ok [] => .error "empty SQL query"
  | .ok (.selectStmt :: _) => .ok ()
  | .ok (.otherStmt _ :: _) => .error "only SELECT statements are allowed"

/-- `ExecuteRawRequest` from `safequery.go` (the `SelectFields` member only
affects post-execution result shaping, which is outside this model). -/
structure ExecuteRawRequest where
  query : List Char
  params : List (String × Option GoVal)
deriving DecidableEq, Repr

/-- `ExecuteRaw[P, R]` from `safequery.go`, cut at the database boundary:
parameter completeness check, placeholder extraction, parameter typing,
placeholder rewriting and SQL-shape validation, in the source's order; only
if every step succeeds is the (abstract) driver `exec` invoked with the
rewritten query and the positional argument list.  `parse` is the external
PostgreSQL parser; result-type metadata lookup and row reshaping (steps
after execution) are outside the model. -/
def ExecuteRawPipeline {α : Type}
    (parse : List Char → Except String (List SqlStmt))
    (exec : List Char → List (Option GoVal) → Except String α)
    (P : StructType) (req : ExecuteRawRequest) : Except String α := do
  validateQueryParams req.query req.params
  let queryParams := ExtractNamedPlaceholders req.query
  let args ← match ValidateMapParamsAgainstStructNamed P req.params queryParams with
    | .error e => throw ("parameter validation failed: " ++ e)
    | .ok a => pure a
  let finalQuery := ReplaceNamedWithDollarPlaceholders req.query queryParams
  validateSQLSyntax (parse finalQuery)
  exec finalQuery args

/-! ## Pagination (`pagination.go`) -/

def DefaultPageSize : Int := 10
def MaxPageSize : Int := 100

/-- `PaginationResponse` from `types.go`. -/
structure PaginationResponse where
  page : Int
  pageSize : Int
  totalItems : Int
  totalPages : Int
deriving DecidableEq, Repr

/-- `ValidatePagination` from `pagination.go`: a nil request becomes
`{page 1, DefaultPageSize}`; otherwise page below 1 becomes 1, page size
below 1 becomes the default, and a page size above the maximum is clamped
to it.  Never an error. -/
def ValidatePagination : Option PaginationRequest → PaginationRequest
  | none => { page := 1, pageSize := DefaultPageSize }
  | some req =>
    let page := if req.page < 1 then 1 else req.page
    let pageSize := if req.pageSize < 1 then DefaultPageSize else req.pageSize
    let pageSize := if pageSize > MaxPageSize then MaxPageSize else pageSize
    { page := page, pageSize := pageSize }

/-- `CalculateOffset` from `pagination.go`. -/
def CalculateOffset (page pageSize : Int) : Int := (page - 1) * pageSize

/-- The total-page computation
`int(math.Ceil(float64(totalItems) / float64(pageSize)))` of
`CalculatePagination`.  The float64 round trip is exact whenever the
integers involved are representable (`0 ≤ totalItems ≤ 2^53`,
`1 ≤ pageSize`), which the model realises as the exact integer ceiling
`(a + b - 1) / b`; all operands being non-negative, the rounding convention
of `/` is immaterial. -/
def ceilDivFloat (a b : Int) : Int := (a + b - 1) / b

/-- `CalculatePagination` from `pagination.go`. -/
def CalculatePagination (totalItems pageSize currentPage : Int) :
    PaginationResponse :=
  { page := currentPage, pageSize := pageSize, totalItems := totalItems,
    totalPages := ceilDivFloat totalItems pageSize }

/-! ## Query texts as token lists

To state the extraction/rewrite round trip for *every* query text built
from literal SQL fragments and `{{name}}` placeholders (not just one
example), query texts are presented as token lists: a token is either a
literal fragment containing no brace characters, or a placeholder name (a
nonempty word).  `renderT` flattens a token list into the raw text the Go
functions receive. -/

/-- A query-text token: a literal fragment or a `{{name}}` placeholder. -/
inductive QTok where
  | lit (s : List Char)
  | ph (name : String)
deriving DecidableEq, Repr

/-- Flatten a token list into raw query text. -/
def renderT : List QTok → List Char
  | [] => []
  | .lit s :: ts => s ++ renderT ts
  | .ph n :: ts => placeholderLit n ++ renderT ts

/-- The placeholder names of a token list, in occurrence order, with
duplicates. -/
def tokNames : List QTok → List String
  | [] => []
  | .lit _ :: ts => tokNames ts
  | .ph n :: ts => n :: tokNames ts

/-- A literal fragment is well formed when it contains no brace. -/
def litOK (s : List Char) : Bool := s.all (fun c => ¬ c = '{' && ¬ c = '}')

/-- A placeholder name is well formed when it is a nonempty word
(`[a-zA-Z0-9_]+`). -/
def nameOK (n : String) : Bool :=
  ¬ n.toList.isEmpty && n.toList.all isWordChar

/-- Token well-formedness. -/
def tokOK : QTok → Bool
  | .lit s => litOK s
  | .ph n => nameOK n

/-- Well-formedness of a whole token list. -/
def toksOK (ts : List QTok) : Bool := ts.all tokOK

/-- Replace the placeholder token named `x` by a literal `r`, leaving
everything else unchanged (the effect of one `strings.ReplaceAll` pass on
the token structure). -/
def substPh (x : String) (r : List Char) : QTok → QTok
  | .ph n => if n = x then .lit r else .ph n
  | .lit s => .lit s

/-- Position of a name in a list (first occurrence). -/
def nameIndex (n : String) : List String → Option Nat
  | [] => none
  | p :: ps => if p = n then some 0 else (nameIndex n ps).map (· + 1)

/-- The cumulative effect of `ReplaceNamedWithDollarPlaceholders` on the
token structure when the parameter list is `ps` and numbering starts after
`i`: the placeholder whose name is the `k`-th entry of `ps` (0-based)
becomes the literal `$ (i+k+1)`. -/
def substPhIdx (ps : List String) (i : Nat) : QTok → QTok
  | .ph n =>
    match nameIndex n ps with
    | some k => .lit (dollarLit (i + k + 1))
    | none => .ph n
  | .lit s => .lit s

end Sqld

namespace Sqld

/-! ## Theorems -/

theorem except_error_bind {ε α β : Type} (e : ε) (f : α → Except ε β) :
    (Except.error e >>= f) = Except.error e := rfl

theorem except_ok_bind {ε α β : Type} (a : α) (f : α → Except ε β) :
    (Except.ok a >>= f) = f a := rfl

theorem except_throw {ε α : Type} (e : ε) :
    (throw e : Except ε α) = Except.error e := rfl

/-- Exact integer ceiling division agrees with the rational ceiling. -/
theorem ceilDivFloat_eq_ceil (a b : ℤ) (hb : 1 ≤ b) :
    ceilDivFloat a b = ⌈(a : ℚ) / (b : ℚ)⌉ := by
  have hb0 : (0 : ℤ) < b := hb
  have h1 : b * ((a + b - 1) / b) + (a + b - 1) % b = a + b - 1 :=
    Int.ediv_add_emod _ _
  have h2 : 0 ≤ (a + b - 1) % b := Int.emod_nonneg _ (by omega)
  have h3 : (a + b - 1) % b < b := Int.emod_lt_of_pos _ hb0
  have hi1 : ((a + b - 1) / b - 1) * b < a := by nlinarith [h1, h2, h3]
  have hi2 : a ≤ ((a + b - 1) / b) * b := by nlinarith [h1, h2, h3]
  have hbq : (0 : ℚ) < (b : ℚ) := by exact_mod_cast hb0
  unfold ceilDivFloat
  symm
  rw [Int.ceil_eq_iff]
  constructor
  · rw [show ((((a + b - 1) / b : ℤ) : ℚ) - 1) =
        ((((a + b - 1) / b - 1 : ℤ)) : ℚ) by push_cast; ring]
    rw [lt_div_iff₀ hbq]
    exact_mod_cast hi1
  · rw [div_le_iff₀ hbq]
    exact_mod_cast hi2

/-- **C9.** Pagination normalization maps `page < 1` to `1`, `pageSize < 1`
to `DefaultPageSize` (10), and `pageSize > MaxPageSize` (100) down to `100`,
never returning an error (it is a total function); the offset is
`(page - 1) * pageSize`; and the response metadata satisfies
`totalPages = ⌈totalItems / pageSize⌉` for all non-negative `totalItems`
(and any positive page size, in particular every normalized one). -/
theorem c9_pagination_normalization :
    (∀ r : PaginationRequest, r.page < 1 → (ValidatePagination (some r)).page = 1) ∧
    (∀ r : PaginationRequest, r.pageSize < 1 →
      (ValidatePagination (some r)).pageSize = DefaultPageSize) ∧
    (∀ r : PaginationRequest, r.pageSize > MaxPageSize →
      (ValidatePagination (some r)).pageSize = MaxPageSize) ∧
    (∀ r : Option PaginationRequest,
      1 ≤ (ValidatePagination r).page ∧
      1 ≤ (ValidatePagination r).pageSize ∧
      (ValidatePagination r).pageSize ≤ MaxPageSize) ∧
    (∀ page pageSize : Int, CalculateOffset page pageSize = (page - 1) * pageSize) ∧
    (∀ totalItems pageSize currentPage : Int, 0 ≤ totalItems → 1 ≤ pageSize →
      (CalculatePagination totalItems pageSize currentPage).totalPages =
        ⌈(totalItems : ℚ) / (pageSize : ℚ)⌉) := by
  refine ⟨?_, ?_, ?_, ?_, ?_, ?_⟩
  · intro r h
    simp [ValidatePagination, h]
  · intro r h
    have h2 : ¬ (DefaultPageSize > MaxPageSize) := by decide
    simp [ValidatePagination, h, h2]
  · intro r h
    have h1 : ¬ r.pageSize < 1 := by
      simp only [MaxPageSize] at h
      omega
    simp [ValidatePagination, h1, h]
  · intro r
    match r with
    | none => exact ⟨by decide, by decide, by decide⟩
    | some req =>
      refine ⟨?_, ?_, ?_⟩ <;>
        simp only [ValidatePagination, DefaultPageSize, MaxPageSize] <;>
        split_ifs <;> simp_all
  · intro page pageSize
    rfl
  · intro totalItems pageSize currentPage h0 h1
    show ceilDivFloat totalItems pageSize = _
    exact ceilDivFloat_eq_ceil totalItems pageSize h1

/-- **C9 witness.** The normalization, offset, and total-page formulas at
concrete inputs: `page=0 → 1`, `pageSize=0 → 10`, `pageSize=10000 → 100`,
offset of page 3 at size 10 is 20, and 101 items at size 10 give 11
pages. -/
theorem c9_pagination_normalization_witness :
    (ValidatePagination (some { page := 0, pageSize := 7 })).page = 1 ∧
    (ValidatePagination (some { page := 2, pageSize := 0 })).pageSize = DefaultPageSize ∧
    (ValidatePagination (some { page := 2, pageSize := 10000 })).pageSize = MaxPageSize ∧
    CalculateOffset 3 10 = 20 ∧
    (CalculatePagination 101 10 1).totalPages = ⌈(101 : ℚ) / (10 : ℚ)⌉ ∧
    (CalculatePagination 101 10 1).totalPages = 11 := by
  obtain ⟨h1, h2, h3, _, h5, h6⟩ := c9_pagination_normalization
  refine ⟨h1 _ (by decide), h2 _ (by decide), h3 _ (by decide), ?_, ?_, by decide⟩
  · rw [h5]
    decide
  · exact h6 101 10 1 (by decide) (by decide)

/-- **C1 counterexample.** The claim says a text containing more than one
statement is rejected; but `validateSQLSyntax` only inspects the first
parsed statement, so a parse outcome of two statements whose first is a
SELECT (e.g. the text `SELECT 1; DELETE FROM t`) is accepted. -/
theorem c1_multi_statement_accepted :
    validateSQLSyntax
        (.ok [SqlStmt.selectStmt, SqlStmt.otherStmt "DeleteStmt"]) = .ok () ∧
    [SqlStmt.selectStmt, SqlStmt.otherStmt "DeleteStmt"].length ≠ 1 := by
  exact ⟨rfl, by decide⟩

/-- **C1 (amended).** The shape gate accepts exactly the parse outcomes
that succeed with a non-empty statement list whose *first* statement is a
SELECT (statements after the first are not examined); a parse failure, an
empty parse result, and a non-SELECT first statement are each rejected with
their own descriptive error. -/
theorem c1_shape_validation (pr : Except String (List SqlStmt)) :
    (validateSQLSyntax pr = .ok () ↔
      ∃ rest, pr = .ok (SqlStmt.selectStmt :: rest)) ∧
    (∀ e, pr = .error e →
      validateSQLSyntax pr = .error ("SQL syntax error: " ++ e)) ∧
    (pr = .ok [] → validateSQLSyntax pr = .error "empty SQL query") ∧
    (∀ k rest, pr = .ok (SqlStmt.otherStmt k :: rest) →
      validateSQLSyntax pr = .error "only SELECT statements are allowed") := by
  refine ⟨?_, ?_, ?_, ?_⟩
  · constructor
    · intro h
      match pr with
      | .error e => simp [validateSQLSyntax] at h
      | .ok [] => simp [validateSQLSyntax] at h
      | .ok (.selectStmt :: rest) => exact ⟨rest, rfl⟩
      | .ok (.otherStmt k :: rest) => simp [validateSQLSyntax] at h
    · rintro ⟨rest, rfl⟩
      rfl
  · rintro e rfl
    rfl
  · rintro rfl
    rfl
  · rintro k rest rfl
    rfl

/-- **C1 witness.** The amended characterization at concrete parse
outcomes: a single SELECT is accepted; a parse error, an empty result, and
a leading UPDATE statement are rejected with the descriptive errors. -/
theorem c1_shape_validation_witness :
    validateSQLSyntax (.ok [SqlStmt.selectStmt]) = .ok () ∧
    validateSQLSyntax (.error "syntax error at or near") =
      .error ("SQL syntax error: " ++ "syntax error at or near") ∧
    validateSQLSyntax (.ok []) = .error "empty SQL query" ∧
    validateSQLSyntax (.ok [SqlStmt.otherStmt "UpdateStmt"]) =
      .error "only SELECT statements are allowed" := by
  refine ⟨?_, ?_, ?_, ?_⟩
  · exact (c1_shape_validation (.ok [SqlStmt.selectStmt])).1.mpr ⟨[], rfl⟩
  · exact (c1_shape_validation (.error "syntax error at or near")).2.1 _ rfl
  · exact (c1_shape_validation (.ok [])).2.2.1 rfl
  · exact (c1_shape_validation (.ok [SqlStmt.otherStmt "UpdateStmt"])).2.2.2 _ _ rfl

/-- **C6 counterexample.** The claim says a value is accepted whenever its
type and the declared type are identical after normalization, in particular
any integer/float family member for a numeric declared type.  But the raw
pipeline's checker demands *exact* type identity: an `int32` value supplied
for a declared `int64` parameter — both numeric, and compatible under the
engine's own normalizing checker `AreTypesCompatible` — is rejected by
`isTypeCompatible` and by `ValidateMapParamsAgainstStructNamed`. -/
theorem c6_numeric_family_rejected :
    IsNumericType GoType.int32 = true ∧
    IsNumericType GoType.int64 = true ∧
    AreTypesCompatible (some GoType.int64) (some GoType.int32) = true ∧
    isTypeCompatible (some GoType.int32) (some GoType.int64) = false ∧
    ValidateMapParamsAgainstStructNamed
        { name := "P", fields := [{ name := "X", dbTag := "x", jsonTag := "x",
                                    typ := GoType.int64 }] }
        [("x", some (GoVal.prim GoType.int32))] ["x"] =
      .error "parameter x type mismatch: got int32, want int64" := by
  refine ⟨rfl, rfl, rfl, rfl, rfl⟩

/-- **C6 (amended).** In the raw pipeline's parameter-typing step a
supplied value is accepted iff its runtime type is *exactly identical* to
the parameter struct's declared type (Go type identity, no numeric-family
normalization), or the declared type is the unconstrained `interface{}`
type, in which case any value is accepted. -/
theorem c6_exact_type_identity :
    (∀ vt et : GoType,
      isTypeCompatible (some vt) (some et) = true ↔
        (et = GoType.anyInterface ∨ vt = et)) ∧
    (∀ (sname fname p : String) (e : GoType) (v : GoVal), p ≠ "" →
      (ValidateMapParamsAgainstStructNamed
          { name := sname, fields := [{ name := fname, dbTag := p,
                                        jsonTag := p, typ := e }] }
          [(p, some v)] [p] = .ok [some v] ↔
        (e = GoType.anyInterface ∨ v.typeOf = e))) := by
  have hpt : ∀ vt et : GoType,
      isTypeCompatible (some vt) (some et) = true ↔
        (et = GoType.anyInterface ∨ vt = et) := by
    intro vt et
    simp only [isTypeCompatible]
    split_ifs with h
    · simp [h]
    · simp [h]
  refine ⟨hpt, ?_⟩
  intro sname fname p e v hp
  have hbt : buildTypeMap [StructField.mk fname p p e] [] = .ok [(p, e)] := by
    simp [buildTypeMap, hp]
  unfold ValidateMapParamsAgainstStructNamed
  rw [hbt]
  show processQueryParams [(p, e)] [(p, some v)] [p] = .ok [some v] ↔ _
  by_cases hc : isTypeCompatible (typeOfVal (some v)) (some e) = true
  · have hiff := (hpt v.typeOf e).mp hc
    simp [processQueryParams, hc, hiff]
    rfl
  · have hnot : ¬ (e = GoType.anyInterface ∨ v.typeOf = e) :=
      fun h => hc ((hpt v.typeOf e).mpr h)
    simp [processQueryParams, hc]
    exact not_or.mp hnot

/-- **C6 witness.** The amended characterization at concrete inputs: an
`int64` value for a declared `int64` parameter is accepted, any value for a
declared `interface{}` parameter is accepted, and a `string` value for a
declared `int64` parameter is not. -/
theorem c6_exact_type_identity_witness :
    ValidateMapParamsAgainstStructNamed
        { name := "P", fields := [{ name := "X", dbTag := "x", jsonTag := "x",
                                    typ := GoType.int64 }] }
        [("x", some (GoVal.prim GoType.int64))] ["x"] =
      .ok [some (GoVal.prim GoType.int64)] ∧
    ValidateMapParamsAgainstStructNamed
        { name := "P", fields := [{ name := "X", dbTag := "x", jsonTag := "x",
                                    typ := GoType.anyInterface }] }
        [("x", some (GoVal.prim GoType.string))] ["x"] =
      .ok [some (GoVal.prim GoType.string)] ∧
    ¬ ValidateMapParamsAgainstStructNamed
        { name := "P", fields := [{ name := "X", dbTag := "x", jsonTag := "x",
                                    typ := GoType.int64 }] }
        [("x", some (GoVal.prim GoType.string))] ["x"] =
      .ok [some (GoVal.prim GoType.string)] := by
  refine ⟨?_, ?_, ?_⟩
  · exact (c6_exact_type_identity.2 "P" "X" "x" GoType.int64
      (GoVal.prim GoType.int64) (by decide)).mpr (Or.inr rfl)
  · exact (c6_exact_type_identity.2 "P" "X" "x" GoType.anyInterface
      (GoVal.prim GoType.string) (by decide)).mpr (Or.inl rfl)
  · intro h
    have := (c6_exact_type_identity.2 "P" "X" "x" GoType.int64
      (GoVal.prim GoType.string) (by decide)).mp h
    simp [GoVal.typeOf] at this

/-- **C10.** For every condition whose operator is not `IS NULL` or
`IS NOT NULL` and whose value is nil, `ValidateQuery` skips the value-type
compatibility check entirely and accepts the condition — provided the field
resolves, the operator is in the closed set and the operator is compatible
with the field's normalized type — regardless of the field's declared type:
the per-condition check succeeds, and so does a whole query carrying the
condition. -/
theorem c10_nil_value_skips_type_check
    (md : ModelMetadata) (c : Condition) (fm : Field)
    (hf : md.fields.lookup c.field = some fm)
    (hop : isValidOperator c.operator = true)
    (h1 : c.operator ≠ OpIsNull) (h2 : c.operator ≠ OpIsNotNull)
    (hcompat : isOperatorCompatibleWithType c.operator fm.normalizedType = true)
    (hv : c.value = none) :
    checkCondition md c = .ok () ∧
    ValidateQuery { select := [c.field], whereC := [c], orderBy := [],
                    pagination := none, limit := none, offset := none } md =
      .ok () := by
  have hcc : checkCondition md c = .ok () := by
    simp only [checkCondition, hf]
    simp only [hop, hcompat]
    simp only [checkCondValue, h1, h2, hv]
    simp
  refine ⟨hcc, ?_⟩
  simp only [ValidateQuery, checkSelectFields, hf, checkWhereList, hcc,
    checkOrderBy, List.isEmpty_cons, Bool.false_eq_true, if_false]
  rfl

/-- **C10 witness.** A nil-valued `>` condition on an `int64` field is
accepted by the validator (no type mismatch is reported). -/
theorem c10_nil_value_skips_type_check_witness :
    checkCondition
        { tableName := "t",
          fields := [("id", { name := "id", jsonName := "id", goFieldName := "ID",
                              typ := GoType.int64,
                              normalizedType := GoType.int64 })] }
        { field := "id", operator := OpGreaterThan, value := none } = .ok () ∧
    ValidateQuery
        { select := ["id"],
          whereC := [{ field := "id", operator := OpGreaterThan, value := none }],
          orderBy := [], pagination := none, limit := none, offset := none }
        { tableName := "t",
          fields := [("id", { name := "id", jsonName := "id", goFieldName := "ID",
                              typ := GoType.int64,
                              normalizedType := GoType.int64 })] } = .ok () := by
  exact c10_nil_value_skips_type_check _ _
    { name := "id", jsonName := "id", goFieldName := "ID",
      typ := GoType.int64, normalizedType := GoType.int64 }
    rfl (by decide) (by decide) (by decide) (by decide) rfl

/-- `checkUpdateSet` either fails or succeeds with `.ok ()` — in particular
it never skips the rest of `ValidateUpdateRequest`. -/
theorem checkUpdateSet_cases (md : ModelMetadata)
    (sets : List (String × Option GoVal)) :
    checkUpdateSet md sets = .ok () ∨ ∃ e, checkUpdateSet md sets = .error e := by
  match h : checkUpdateSet md sets with
  | .ok () => exact Or.inl rfl
  | .error e => exact Or.inr ⟨e, rfl⟩

/-- `buildUpdateSet` either fails or succeeds. -/
theorem buildUpdateSet_cases (md : ModelMetadata)
    (sets : List (String × Option GoVal)) :
    (∃ l, buildUpdateSet md sets = .ok l) ∨
      ∃ e, buildUpdateSet md sets = .error e := by
  match h : buildUpdateSet md sets with
  | .ok l => exact Or.inl ⟨l, rfl⟩
  | .error e => exact Or.inr ⟨e, rfl⟩

/-- **C2.** Validation of an `UpdateRequest` and the update builder fail for
every request whose SET map is empty or whose WHERE list is empty, so there
is no code path that produces SQL for a WHERE-less (or SET-less) update;
`ExecuteUpdate` returns an error without reaching the database — for every
driver behaviour `exec`, the result is the same error, so the driver is
never consulted. -/
theorem c2_update_safety (md : ModelMetadata) (tn : String)
    (req : UpdateRequest) (h : req.set = [] ∨ req.whereC = []) :
    (∃ e, ValidateUpdateRequest req md = .error e) ∧
    (∃ e, buildUpdateQuery md tn req = .error e) ∧
    (∀ exec : UpdateBuilderQ → Except String Int,
      ∃ e, ExecuteUpdate exec md tn req = .error e) ∧
    (∀ exec₁ exec₂ : UpdateBuilderQ → Except String Int,
      ExecuteUpdate exec₁ md tn req = ExecuteUpdate exec₂ md tn req) := by
  have hval : ∃ e, ValidateUpdateRequest req md = .error e := by
    rcases h with hset | hwhere
    · refine ⟨"update request must include at least one field to update", ?_⟩
      simp [ValidateUpdateRequest, hset, except_throw, except_error_bind]
    · by_cases hset : req.set.isEmpty
      · refine ⟨"update request must include at least one field to update", ?_⟩
        simp [ValidateUpdateRequest, hset, except_throw, except_error_bind]
      · rcases checkUpdateSet_cases md req.set with hok | ⟨e, he⟩
        · refine ⟨"update request must include where conditions", ?_⟩
          simp [ValidateUpdateRequest, hset, hok, hwhere, except_throw,
            except_error_bind, except_ok_bind]
        · refine ⟨e, ?_⟩
          simp [ValidateUpdateRequest, hset, he, except_throw,
            except_error_bind, except_ok_bind]
  have hbuild : ∃ e, buildUpdateQuery md tn req = .error e := by
    rcases h with hset | hwhere
    · refine ⟨"update request must include at least one field to update", ?_⟩
      simp [buildUpdateQuery, hset, except_throw, except_error_bind]
    · by_cases hset : req.set.isEmpty
      · refine ⟨"update request must include at least one field to update", ?_⟩
        simp [buildUpdateQuery, hset, except_throw, except_error_bind]
      · rcases buildUpdateSet_cases md req.set with ⟨l, hok⟩ | ⟨e, he⟩
        · refine ⟨"update request must include where conditions", ?_⟩
          simp [buildUpdateQuery, hset, hok, hwhere, except_throw,
            except_error_bind, except_ok_bind]
        · refine ⟨e, ?_⟩
          simp [buildUpdateQuery, hset, he, except_throw,
            except_error_bind, except_ok_bind]
  obtain ⟨e, hb⟩ := hbuild
  refine ⟨hval, ⟨e, hb⟩, ?_, ?_⟩
  · intro exec
    exact ⟨"failed to build update query: " ++ e, by simp [ExecuteUpdate, hb]⟩
  · intro exec₁ exec₂
    simp [ExecuteUpdate, hb]

/-- **C2 witness.** Concrete instances of the safety invariant: a request
with a non-empty WHERE but empty SET, and one with a non-empty SET but
empty WHERE, are both rejected by validation, by the builder, and by
`ExecuteUpdate` under an arbitrary driver that would report success. -/
theorem c2_update_safety_witness :
    (∃ e, ValidateUpdateRequest
      { set := [],
        whereC := [{ field := "id", operator := OpEqual,
                     value := some (GoVal.prim GoType.int64) }] }
      { tableName := "t",
        fields := [("id", { name := "id", jsonName := "id", goFieldName := "ID",
                            typ := GoType.int64,
                            normalizedType := GoType.int64 })] } = .error e) ∧
    (∃ e, buildUpdateQuery
      { tableName := "t",
        fields := [("id", { name := "id", jsonName := "id", goFieldName := "ID",
                            typ := GoType.int64,
                            normalizedType := GoType.int64 })] } "t"
      { set := [("id", some (GoVal.prim GoType.int64))], whereC := [] } =
        .error e) ∧
    (∃ e, ExecuteUpdate (fun _ => .ok 1)
      { tableName := "t",
        fields := [("id", { name := "id", jsonName := "id", goFieldName := "ID",
                            typ := GoType.int64,
                            normalizedType := GoType.int64 })] } "t"
      { set := [("id", some (GoVal.prim GoType.int64))], whereC := [] } =
        .error e) := by
  refine ⟨?_, ?_, ?_⟩
  · exact (c2_update_safety _ "t" _ (Or.inl rfl)).1
  · exact (c2_update_safety _ "t" _ (Or.inr rfl)).2.1
  · exact (c2_update_safety _ "t" _ (Or.inr rfl)).2.2.1 _

/-- If some struct field is missing its `db` or `json` tag, the
registration scan fails (whatever converter state and accumulator it starts
from). -/
theorem scanRegisterFields_error_of_bad_field :
    ∀ (fs : List StructField) (conv : List GoType) (acc : List (String × RField)),
      (∃ f ∈ fs, f.dbTag = "" ∨ f.jsonTag = "") →
      ∃ e conv', scanRegisterFields conv fs acc = (.error e, conv') := by
  intro fs
  induction fs with
  | nil => rintro conv acc ⟨f, hf, _⟩; exact absurd hf (List.not_mem_nil f)
  | cons f fs ih =>
    rintro conv acc ⟨g, hg, hbad⟩
    by_cases hdb : f.dbTag = ""
    · refine ⟨"field \"" ++ f.name ++ "\" missing required db tag", conv, ?_⟩
      simp [scanRegisterFields, hdb]
    · by_cases hjs : f.jsonTag = ""
      · refine ⟨"field \"" ++ f.name ++ "\" missing required json tag", conv, ?_⟩
        simp [scanRegisterFields, hdb, hjs]
      · have hgfs : g ∈ fs := by
          rcases List.mem_cons.mp hg with rfl | h
          · rcases hbad with h | h
            · exact absurd h hdb
            · exact absurd h hjs
          · exact h
        obtain ⟨e, conv', h⟩ := ih _ _ ⟨g, hgfs, hbad⟩
        refine ⟨e, conv', ?_⟩
        simp only [scanRegisterFields, hdb, hjs, if_false]
        exact h

/-- **C8.** Whenever model registration fails — because the type is already
registered, or because some struct field lacks a required `db` or `json`
tag — the registry's stored model metadata is unchanged by the call; in
particular a second `Register` of the same type returns an error leaving
the whole registry untouched, and a failed field scan commits no partial
metadata (only the auxiliary converters map may have gained entries). -/
theorem c8_registration_no_partial_metadata (r : Registry) (t : StructType)
    (tn : String) :
    (∀ e, (Registry.registerModel r t tn).1 = .error e →
      (Registry.registerModel r t tn).2.models = r.models) ∧
    ((r.models.lookup t).isSome = true →
      ∃ e, (Registry.registerModel r t tn).1 = .error e ∧
        (Registry.registerModel r t tn).2 = r) ∧
    ((∃ f ∈ t.fields, f.dbTag = "" ∨ f.jsonTag = "") →
      ∃ e, (Registry.registerModel r t tn).1 = .error e) := by
  refine ⟨?_, ?_, ?_⟩
  · intro e he
    by_cases hreg : (r.models.lookup t).isSome
    · simp [Registry.registerModel, hreg]
    · simp only [Registry.registerModel, hreg, Bool.false_eq_true, if_false] at he ⊢
      match hs : scanRegisterFields r.converters t.fields [] with
      | (.error e', conv') => simp [hs]
      | (.ok flds, conv') => simp [hs] at he
  · intro hreg
    refine ⟨"model " ++ t.name ++ " already registered", ?_, ?_⟩ <;>
      simp [Registry.registerModel, hreg]
  · intro hbad
    by_cases hreg : (r.models.lookup t).isSome
    · refine ⟨"model " ++ t.name ++ " already registered", ?_⟩
      simp [Registry.registerModel, hreg]
    · obtain ⟨e, conv', hs⟩ :=
        scanRegisterFields_error_of_bad_field t.fields r.converters [] hbad
      exact ⟨e, by simp [Registry.registerModel, hreg, hs]⟩

/-- **C8 witness.** On a concrete registry: re-registering an
already-registered type errs and leaves the registry untouched, and
registering a type with a field missing its `db` tag errs without touching
the models map. -/
theorem c8_registration_no_partial_metadata_witness :
    (∃ e,
      (Registry.registerModel
        { models := [(StructType.mk "M" [], RModelMetadata.mk "m" [])],
          scanners := [], converters := [] }
        (StructType.mk "M" []) "m").1 = .error e ∧
      (Registry.registerModel
        { models := [(StructType.mk "M" [], RModelMetadata.mk "m" [])],
          scanners := [], converters := [] }
        (StructType.mk "M" []) "m").2 =
        { models := [(StructType.mk "M" [], RModelMetadata.mk "m" [])],
          scanners := [], converters := [] }) ∧
    (∃ e,
      (Registry.registerModel { models := [], scanners := [], converters := [] }
        (StructType.mk "N" [StructField.mk "F" "" "f" GoType.int]) "n").1 =
        .error e) ∧
    (Registry.registerModel { models := [], scanners := [], converters := [] }
        (StructType.mk "N" [StructField.mk "F" "" "f" GoType.int]) "n").2.models =
      [] := by
  refine ⟨?_, ?_, ?_⟩
  · exact (c8_registration_no_partial_metadata _ _ "m").2.1 (by decide)
  · exact (c8_registration_no_partial_metadata _ _ "n").2.2
      ⟨StructField.mk "F" "" "f" GoType.int, by decide, Or.inl rfl⟩
  · obtain ⟨e, he⟩ := (c8_registration_no_partial_metadata
      { models := [], scanners := [], converters := [] }
      (StructType.mk "N" [StructField.mk "F" "" "f" GoType.int]) "n").2.2
      ⟨StructField.mk "F" "" "f" GoType.int, by decide, Or.inl rfl⟩
    exact (c8_registration_no_partial_metadata _ _ "n").1 e he

/-- **C7 counterexample.** The claim says any operator/field-type pairing
other than the listed ones is rejected; but `IN` (not among the listed
operators) paired with a `bool` field (neither numeric, string, nor
timestamp) is *accepted* by the compatibility check, and a whole query
carrying such a condition passes validation. -/
theorem c7_in_operator_accepted_on_bool :
    isOperatorCompatibleWithType OpIn GoType.bool = true ∧
    (OpIn ≠ OpEqual ∧ OpIn ≠ OpNotEqual ∧ OpIn ≠ OpIsNull ∧
     OpIn ≠ OpIsNotNull ∧ OpIn ≠ OpGreaterThan ∧ OpIn ≠ OpLessThan ∧
     OpIn ≠ OpGreaterThanOrEqual ∧ OpIn ≠ OpLessThanOrEqual ∧
     OpIn ≠ OpLike ∧ OpIn ≠ OpILike) ∧
    GoType.bool.isNumericKind = false ∧ GoType.bool.isStringKind = false ∧
    GoType.bool.typeString ≠ "time.Time" ∧
    ValidateQuery
      { select := ["active"],
        whereC := [{ field := "active", operator := OpIn,
                     value := some (GoVal.typedSlice GoType.bool) }],
        orderBy := [], pagination := none, limit := none, offset := none }
      { tableName := "t",
        fields := [("active", { name := "active", jsonName := "active",
                                goFieldName := "Active", typ := GoType.bool,
                                normalizedType := GoType.bool })] } = .ok () := by
  refine ⟨rfl, by decide, rfl, rfl, by decide, rfl⟩

/-- **C7 (amended).** Operator/type validation follows the compatibility
table *extended with the `IN`/`NOT IN` row*: `=`, `!=`, `IS NULL`,
`IS NOT NULL`, `IN` and `NOT IN` are accepted for every normalized field
type (the slice shape of `IN`/`NOT IN` values is checked separately); `>`,
`<`, `>=`, `<=` only for numeric-kind, string-kind, or `time.Time` fields;
`LIKE` and `ILIKE` only for string-kind fields; every other pairing is
incompatible, and an incompatible pairing on a resolvable field with a
closed-set operator makes `ValidateQuery` fail with the
operator-compatibility error. -/
theorem c7_operator_type_table :
    (∀ (op : Operator) (t : GoType),
      isOperatorCompatibleWithType op t = true ↔
        ((op = OpEqual ∨ op = OpNotEqual ∨ op = OpIsNull ∨ op = OpIsNotNull ∨
          op = OpIn ∨ op = OpNotIn) ∨
         ((op = OpGreaterThan ∨ op = OpLessThan ∨ op = OpGreaterThanOrEqual ∨
           op = OpLessThanOrEqual) ∧
          (t.isNumericKind = true ∨ t.isStringKind = true ∨
           t.typeString = "time.Time")) ∨
         ((op = OpLike ∨ op = OpILike) ∧ t.isStringKind = true))) ∧
    (∀ (md : ModelMetadata) (c : Condition) (fm : Field),
      md.fields.lookup c.field = some fm →
      isValidOperator c.operator = true →
      isOperatorCompatibleWithType c.operator fm.normalizedType = false →
      ValidateQuery { select := [c.field], whereC := [c], orderBy := [],
                      pagination := none, limit := none, offset := none } md =
        .error ("operator " ++ c.operator ++ " is not compatible with field type "
          ++ fm.normalizedType.typeString)) := by
  constructor
  · intro op t
    by_cases h1 : op = OpEqual ∨ op = OpNotEqual ∨ op = OpIsNull ∨ op = OpIsNotNull
    · have hL : isOperatorCompatibleWithType op t = true := by
        rcases h1 with rfl | rfl | rfl | rfl <;> rfl
      simp only [hL, true_iff]
      rcases h1 with rfl | rfl | rfl | rfl <;> tauto
    · by_cases h2 : op = OpGreaterThan ∨ op = OpLessThan ∨
          op = OpGreaterThanOrEqual ∨ op = OpLessThanOrEqual
      · have hL : isOperatorCompatibleWithType op t =
            (if t.isNumericKind || t.isStringKind then true
             else t.typeString = "time.Time") := by
          rcases h2 with rfl | rfl | rfl | rfl <;> rfl
        rw [hL]
        constructor
        · intro h
          refine Or.inr (Or.inl ⟨h2, ?_⟩)
          by_cases h3 : t.isNumericKind || t.isStringKind
          · rcases Bool.or_eq_true_iff.mp h3 with hn | hs
            · exact Or.inl hn
            · exact Or.inr (Or.inl hs)
          · rw [if_neg h3] at h
            exact Or.inr (Or.inr (by simpa using h))
        · intro h
          rcases h with h | ⟨_, hd⟩ | ⟨hlike, _⟩
          · exfalso
            rcases h2 with rfl | rfl | rfl | rfl <;> simp [OpEqual, OpNotEqual,
              OpIsNull, OpIsNotNull, OpIn, OpNotIn, OpGreaterThan, OpLessThan,
              OpGreaterThanOrEqual, OpLessThanOrEqual] at h
          · by_cases h3 : t.isNumericKind || t.isStringKind
            · simp [h3]
            · rw [if_neg h3]
              rcases hd with hn | hs | ht
              · exact absurd (Bool.or_eq_true_iff.mpr (Or.inl hn)) h3
              · exact absurd (Bool.or_eq_true_iff.mpr (Or.inr hs)) h3
              · simpa using ht
          · exfalso
            rcases h2 with rfl | rfl | rfl | rfl <;>
              simp [OpLike, OpILike, OpGreaterThan, OpLessThan,
                OpGreaterThanOrEqual, OpLessThanOrEqual] at hlike
      · by_cases h4 : op = OpLike ∨ op = OpILike
        · have hL : isOperatorCompatibleWithType op t = t.isStringKind := by
            rcases h4 with rfl | rfl <;> rfl
          rw [hL]
          constructor
          · intro h
            exact Or.inr (Or.inr ⟨h4, h⟩)
          · intro h
            rcases h with h | ⟨hord, _⟩ | ⟨_, hs⟩
            · exfalso
              rcases h4 with rfl | rfl <;> simp [OpEqual, OpNotEqual, OpIsNull,
                OpIsNotNull, OpIn, OpNotIn, OpLike, OpILike] at h
            · exfalso
              rcases h4 with rfl | rfl <;>
                simp [OpLike, OpILike, OpGreaterThan, OpLessThan,
                  OpGreaterThanOrEqual, OpLessThanOrEqual] at hord
            · exact hs
        · by_cases h5 : op = OpIn ∨ op = OpNotIn
          · have hL : isOperatorCompatibleWithType op t = true := by
              rcases h5 with rfl | rfl <;> rfl
            simp only [hL, true_iff]
            rcases h5 with rfl | rfl <;> tauto
          · have hL : isOperatorCompatibleWithType op t = false := by
              unfold isOperatorCompatibleWithType
              rw [if_neg, if_neg, if_neg, if_neg]
              · simp only [Bool.or_eq_true, decide_eq_true_eq]
                tauto
              · simp only [Bool.or_eq_true, decide_eq_true_eq]
                tauto
              · simp only [Bool.or_eq_true, decide_eq_true_eq]
                tauto
              · simp only [Bool.or_eq_true, decide_eq_true_eq]
                tauto
            rw [hL]
            constructor
            · intro h
              exact absurd h (by simp)
            · intro h
              exfalso
              rcases h with h | ⟨hord, _⟩ | ⟨hlike, _⟩
              · rcases h with h | h | h | h | h | h
                · exact h1 (Or.inl h)
                · exact h1 (Or.inr (Or.inl h))
                · exact h1 (Or.inr (Or.inr (Or.inl h)))
                · exact h1 (Or.inr (Or.inr (Or.inr h)))
                · exact h5 (Or.inl h)
                · exact h5 (Or.inr h)
              · exact h2 hord
              · exact h4 hlike
  · intro md c fm hf hop hcompat
    have hcc : checkCondition md c =
        .error ("operator " ++ c.operator ++ " is not compatible with field type "
          ++ fm.normalizedType.typeString) := by
      simp [checkCondition, hf, hop, hcompat]
    simp only [ValidateQuery, List.isEmpty_cons, Bool.false_eq_true, if_false,
      checkSelectFields, hf, checkWhereList, hcc, except_error_bind,
      except_ok_bind]
    rfl

/-- **C7 witness.** The amended table at concrete inputs: `LIKE` on an
`int64` field is in the closed operator set but incompatible, and
`ValidateQuery` fails with the operator-compatibility error; `>` on a
`time.Time` field is compatible. -/
theorem c7_operator_type_table_witness :
    isOperatorCompatibleWithType OpGreaterThan GoType.timeT = true ∧
    ValidateQuery
      { select := ["id"],
        whereC := [{ field := "id", operator := OpLike,
                     value := some (GoVal.prim GoType.string) }],
        orderBy := [], pagination := none, limit := none, offset := none }
      { tableName := "t",
        fields := [("id", { name := "id", jsonName := "id", goFieldName := "ID",
                            typ := GoType.int64,
                            normalizedType := GoType.int64 })] } =
      .error ("operator " ++ OpLike ++ " is not compatible with field type "
        ++ GoType.int64.typeString) := by
  constructor
  · exact (c7_operator_type_table.1 OpGreaterThan GoType.timeT).mpr
      (Or.inr (Or.inl ⟨Or.inl rfl, Or.inr (Or.inr rfl)⟩))
  · exact c7_operator_type_table.2
      { tableName := "t",
        fields := [("id", { name := "id", jsonName := "id", goFieldName := "ID",
                            typ := GoType.int64,
                            normalizedType := GoType.int64 })] }
      { field := "id", operator := OpLike,
        value := some (GoVal.prim GoType.string) }
      { name := "id", jsonName := "id", goFieldName := "ID",
        typ := GoType.int64, normalizedType := GoType.int64 }
      rfl (by decide) (by decide)

/-- **C4.** `ExecuteRaw` rejects the request before any execution when the
supplied parameter map omits a name that appears as a `{{name}}`
placeholder in the query text, or contains a name that does not appear in
the query text: the completeness check fails, and the whole pipeline
returns that very error no matter how the parser or the driver would have
behaved (they are never consulted).  When the map's key set equals the
extracted placeholder set exactly, the completeness check succeeds. -/
theorem c4_parameter_shape_symmetry :
    (∀ (q : List Char) (pm : List (String × Option GoVal)),
      ((∃ n ∈ requiredParams q, n ∉ pm.map Prod.fst) ∨
       (∃ n ∈ pm.map Prod.fst, n ∉ requiredParams q)) →
      ∃ e, validateQueryParams q pm = .error e ∧
        ∀ (α : Type) (parse : List Char → Except String (List SqlStmt))
          (exec : List Char → List (Option GoVal) → Except String α)
          (P : StructType),
          ExecuteRawPipeline parse exec P { query := q, params := pm } =
            .error e) ∧
    (∀ (q : List Char) (pm : List (String × Option GoVal)),
      (∀ n, n ∈ pm.map Prod.fst ↔ n ∈ requiredParams q) →
      validateQueryParams q pm = .ok ()) := by
  constructor
  · intro q pm h
    have hcond : ¬ ((((requiredParams q).filter
          (fun p => ¬ (pm.map Prod.fst).contains p)).isEmpty &&
        (((pm.map Prod.fst).filter
          (fun p => ¬ (requiredParams q).contains p)).isEmpty)) = true) := by
      rcases h with ⟨n, hn, hnk⟩ | ⟨n, hn, hnr⟩
      · have hmem : n ∈ (requiredParams q).filter
            (fun p => ¬ (pm.map Prod.fst).contains p) := by
          refine List.mem_filter.mpr ⟨hn, ?_⟩
          simpa [List.elem_iff] using hnk
        intro hc
        rw [Bool.and_eq_true] at hc
        have := List.isEmpty_iff.mp hc.1
        rw [this] at hmem
        exact List.not_mem_nil n hmem
      · have hmem : n ∈ (pm.map Prod.fst).filter
            (fun p => ¬ (requiredParams q).contains p) := by
          refine List.mem_filter.mpr ⟨hn, ?_⟩
          simpa [List.elem_iff] using hnr
        intro hc
        rw [Bool.and_eq_true] at hc
        have := List.isEmpty_iff.mp hc.2
        rw [this] at hmem
        exact List.not_mem_nil n hmem
    have hval : ∃ e, validateQueryParams q pm = .error e := by
      simp only [validateQueryParams]
      rw [if_neg hcond]
      exact ⟨_, rfl⟩
    obtain ⟨e, he⟩ := hval
    refine ⟨e, he, ?_⟩
    intro α parse exec P
    simp only [ExecuteRawPipeline]
    rw [he]
    rfl
  · intro q pm h
    have hm : (requiredParams q).filter
        (fun p => ¬ (pm.map Prod.fst).contains p) = [] := by
      rw [List.filter_eq_nil_iff]
      intro a ha
      simp only [decide_eq_true_eq, Decidable.not_not]
      exact List.elem_iff.mpr ((h a).mpr ha)
    have hx : (pm.map Prod.fst).filter
        (fun p => ¬ (requiredParams q).contains p) = [] := by
      rw [List.filter_eq_nil_iff]
      intro a ha
      simp only [decide_eq_true_eq, Decidable.not_not]
      exact List.elem_iff.mpr ((h a).mp ha)
    simp only [validateQueryParams, hm, hx]
    rfl

/-- **C4 witness.** Concrete instances: omitting the required parameter of
`{{a}}` is rejected (and the whole pipeline errs under a parser and driver
that would have succeeded); supplying an extra parameter `c` is rejected;
supplying exactly `a` passes the completeness check. -/
theorem c4_parameter_shape_symmetry_witness :
    (∃ e, validateQueryParams ('{' :: '{' :: 'a' :: '}' :: '}' :: []) [] =
        .error e ∧
      ExecuteRawPipeline (fun _ => .ok [SqlStmt.selectStmt])
        (fun _ _ => .ok ()) (StructType.mk "P" [])
        { query := '{' :: '{' :: 'a' :: '}' :: '}' :: [], params := [] } =
        .error e) ∧
    (∃ e, validateQueryParams ('{' :: '{' :: 'a' :: '}' :: '}' :: [])
        [("a", none), ("c", none)] = .error e) ∧
    validateQueryParams ('{' :: '{' :: 'a' :: '}' :: '}' :: [])
      [("a", none)] = .ok () := by
  have hreq : requiredParams ('{' :: '{' :: 'a' :: '}' :: '}' :: []) = ["a"] := by
    simp [requiredParams, scanPlaceholders, takeWord, isWordChar, dedupFirst]
  refine ⟨?_, ?_, ?_⟩
  · obtain ⟨e, he, hp⟩ := c4_parameter_shape_symmetry.1
      ('{' :: '{' :: 'a' :: '}' :: '}' :: []) []
      (Or.inl ⟨"a", by rw [hreq]; decide, by decide⟩)
    exact ⟨e, he, hp Unit _ _ _⟩
  · obtain ⟨e, he, _⟩ := c4_parameter_shape_symmetry.1
      ('{' :: '{' :: 'a' :: '}' :: '}' :: []) [("a", none), ("c", none)]
      (Or.inr ⟨"c", by decide, by rw [hreq]; decide⟩)
    exact ⟨e, he⟩
  · refine c4_parameter_shape_symmetry.2 _ _ ?_
    intro n
    rw [hreq]
    simp

/-- **C5 (divergence).** The builder (`buildQuery`) implements the
`SelectAll` sentinel and projects all registered columns for it, as the
claim and `types.go`'s own documentation of `SelectAll` describe; but
`ValidateQuery` — which `Execute` runs *before* building — has no sentinel
case and rejects the request with a field-reference error, so the sentinel
never passes query validation (here on a model with fields `id`, `name`).
The non-sentinel half of the claim does hold: an empty select list and an
unresolvable entry are each rejected with the corresponding error. -/
theorem c5_select_all_sentinel_divergence :
    ValidateQuery
      { select := [SelectAll], whereC := [], orderBy := [],
        pagination := none, limit := none, offset := none }
      { tableName := "t",
        fields := [("id", { name := "id", jsonName := "id", goFieldName := "ID",
                            typ := GoType.int64, normalizedType := GoType.int64 }),
                   ("name", { name := "name", jsonName := "name",
                              goFieldName := "Name", typ := GoType.string,
                              normalizedType := GoType.string })] } =
      .error "invalid field in select: ALL" ∧
    buildQuery
      { tableName := "t",
        fields := [("id", { name := "id", jsonName := "id", goFieldName := "ID",
                            typ := GoType.int64, normalizedType := GoType.int64 }),
                   ("name", { name := "name", jsonName := "name",
                              goFieldName := "Name", typ := GoType.string,
                              normalizedType := GoType.string })] } "t"
      { select := [SelectAll], whereC := [], orderBy := [],
        pagination := none, limit := none, offset := none } =
      .ok { columns := ["id", "name"], table := "t", wheres := [],
            orderBys := [], limit := none, offset := none } ∧
    ValidateQuery
      { select := [], whereC := [], orderBy := [],
        pagination := none, limit := none, offset := none }
      { tableName := "t",
        fields := [("id", { name := "id", jsonName := "id", goFieldName := "ID",
                            typ := GoType.int64, normalizedType := GoType.int64 }),
                   ("name", { name := "name", jsonName := "name",
                              goFieldName := "Name", typ := GoType.string,
                              normalizedType := GoType.string })] } =
      .error "select fields cannot be empty" ∧
    ValidateQuery
      { select := ["missing"], whereC := [], orderBy := [],
        pagination := none, limit := none, offset := none }
      { tableName := "t",
        fields := [("id", { name := "id", jsonName := "id", goFieldName := "ID",
                            typ := GoType.int64, normalizedType := GoType.int64 }),
                   ("name", { name := "name", jsonName := "name",
                              goFieldName := "Name", typ := GoType.string,
                              normalizedType := GoType.string })] } =
      .error "invalid field in select: missing" := by
  refine ⟨rfl, rfl, rfl, rfl⟩

/-! ### Lemmas for the raw-pipeline round trip (C3) -/

theorem stringMk_toList (s : String) : String.mk s.toList = s := rfl

theorem toList_stringMk (l : List Char) : (String.mk l).toList = l := rfl

theorem takeWord_append (w r : List Char) (hw : ∀ c ∈ w, isWordChar c = true)
    (hr : ∀ c ∈ r.head?, isWordChar c = false) : takeWord (w ++ r) = (w, r) := by
  induction w with
  | nil =>
    cases r with
    | nil => rfl
    | cons c cs =>
      have hc := hr c rfl
      simp [takeWord, hc]
  | cons c w ih =>
    have hc := hw c (by simp)
    have ih2 := ih (fun d hd => hw d (List.mem_cons_of_mem _ hd))
    simp [takeWord, hc, ih2]

theorem nameOK_toList_word (n : String) (hn : nameOK n = true) :
    ∀ d ∈ n.toList, isWordChar d = true := by
  unfold nameOK at hn
  rw [Bool.and_eq_true] at hn
  intro d hd
  exact List.all_eq_true.mp hn.2 d hd

theorem nameOK_toList_ne_nil (n : String) (hn : nameOK n = true) :
    ∃ c0 w0, n.toList = c0 :: w0 := by
  unfold nameOK at hn
  rw [Bool.and_eq_true] at hn
  rcases h : n.toList with _ | ⟨c0, w0⟩
  · rw [h] at hn
    simp at hn
  · exact ⟨c0, w0, rfl⟩

theorem matchPlaceholder_ph (n : String) (rest : List Char)
    (hn : nameOK n = true) :
    matchPlaceholder (placeholderLit n ++ rest) = some (n, rest) := by
  obtain ⟨c0, w0, hcw⟩ := nameOK_toList_ne_nil n hn
  have htw : takeWord (n.toList ++ ('}' :: '}' :: rest)) =
      (n.toList, '}' :: '}' :: rest) := by
    refine takeWord_append _ _ (nameOK_toList_word n hn) ?_
    intro d hd
    have : d = '}' := by simpa using hd.symm
    subst this
    decide
  have hshape : placeholderLit n ++ rest =
      '{' :: '{' :: (n.toList ++ ('}' :: '}' :: rest)) := by
    simp [placeholderLit]
  rw [hshape]
  simp only [matchPlaceholder]
  rw [htw, hcw]
  simp only []
  rw [← hcw, stringMk_toList]

theorem matchPlaceholder_cons_ne (c : Char) (l : List Char) (hc : ¬ c = '{') :
    matchPlaceholder (c :: l) = none := by
  rw [matchPlaceholder.eq_def]
  split
  · rename_i rest heq
    injection heq with h1 h2
    exact absurd h1 hc
  · rfl

theorem scan_nil : scanPlaceholders [] = [] := by
  rw [scanPlaceholders.eq_def]

theorem scan_cons_of_some (c : Char) (cs : List Char) (nm : String)
    (r' : List Char) (h : matchPlaceholder (c :: cs) = some (nm, r')) :
    scanPlaceholders (c :: cs) = nm :: scanPlaceholders r' := by
  rw [scanPlaceholders.eq_def]
  split
  · rename_i heq
    exact absurd heq (by simp)
  · rename_i c1 cs1 heq
    injection heq with h1 h2
    subst h1
    subst h2
    split
    · rename_i nm1 r1 hm
      rw [h] at hm
      injection hm with hm1
      injection hm1 with hm2 hm3
      rw [hm2, hm3]
    · rename_i hm
      rw [h] at hm
      exact absurd hm (by simp)

theorem scan_cons_of_none (c : Char) (cs : List Char)
    (h : matchPlaceholder (c :: cs) = none) :
    scanPlaceholders (c :: cs) = scanPlaceholders cs := by
  rw [scanPlaceholders.eq_def]
  split
  · rename_i heq
    exact absurd heq (by simp)
  · rename_i c1 cs1 heq
    injection heq with h1 h2
    subst h1
    subst h2
    split
    · rename_i nm1 r1 hm
      rw [h] at hm
      exact absurd hm (by simp)
    · rfl

theorem litOK_head (c : Char) (s : List Char) (h : litOK (c :: s) = true) :
    (¬ c = '{' ∧ ¬ c = '}') ∧ litOK s = true := by
  unfold litOK at h ⊢
  rw [List.all_cons, Bool.and_eq_true] at h
  refine ⟨?_, h.2⟩
  have := h.1
  simp only [Bool.and_eq_true, decide_eq_true_eq] at this
  exact this

theorem scan_append_lit (s rest : List Char) (hs : litOK s = true) :
    scanPlaceholders (s ++ rest) = scanPlaceholders rest := by
  induction s with
  | nil => rfl
  | cons c s ih =>
    obtain ⟨⟨hc, _⟩, hs'⟩ := litOK_head c s hs
    rw [List.cons_append,
      scan_cons_of_none _ _ (matchPlaceholder_cons_ne c _ hc), ih hs']

theorem scan_append_ph (n : String) (rest : List Char) (hn : nameOK n = true) :
    scanPlaceholders (placeholderLit n ++ rest) = n :: scanPlaceholders rest := by
  have hm := matchPlaceholder_ph n rest hn
  exact scan_cons_of_some _ _ _ _ hm

theorem toksOK_head (t : QTok) (ts : List QTok) (h : toksOK (t :: ts) = true) :
    tokOK t = true ∧ toksOK ts = true := by
  unfold toksOK at h ⊢
  rw [List.all_cons, Bool.and_eq_true] at h
  exact h

theorem scan_render (ts : List QTok) (hts : toksOK ts = true) :
    scanPlaceholders (renderT ts) = tokNames ts := by
  induction ts with
  | nil => exact scan_nil
  | cons t ts ih =>
    obtain ⟨h1, h2⟩ := toksOK_head t ts hts
    cases t with
    | lit s =>
      show scanPlaceholders (s ++ renderT ts) = tokNames ts
      rw [scan_append_lit s _ h1, ih h2]
    | ph n =>
      show scanPlaceholders (placeholderLit n ++ renderT ts) = n :: tokNames ts
      rw [scan_append_ph n _ h1, ih h2]

theorem dedupFirst_nodup_aux (l : List String) :
    ∀ seen : List String,
      (dedupFirst seen l).Nodup ∧ ∀ x ∈ dedupFirst seen l, ¬ seen.contains x := by
  induction l with
  | nil => intro seen; exact ⟨List.nodup_nil, by simp [dedupFirst]⟩
  | cons x xs ih =>
    intro seen
    by_cases hx : seen.contains x
    · have := ih seen
      have hshape : dedupFirst seen (x :: xs) = dedupFirst seen xs := by
        rw [dedupFirst, if_pos hx]
      constructor
      · rw [hshape]
        exact this.1
      · intro y hy
        rw [hshape] at hy
        exact this.2 y hy
    · have hrec := ih (x :: seen)
      have hshape : dedupFirst seen (x :: xs) = x :: dedupFirst (x :: seen) xs := by
        rw [dedupFirst, if_neg hx]
      constructor
      · rw [hshape]
        refine List.nodup_cons.mpr ⟨?_, hrec.1⟩
        intro hmem
        exact hrec.2 x hmem (by simp)
      · intro y hy
        rw [hshape] at hy
        rcases List.mem_cons.mp hy with rfl | hy'
        · exact hx
        · intro hc
          exact hrec.2 y hy' (by simp [List.elem_iff.mp hc, List.contains])

theorem dedupFirst_subset (l : List String) :
    ∀ (seen : List String) (x : String), x ∈ dedupFirst seen l → x ∈ l := by
  induction l with
  | nil => intro seen x hx; simpa [dedupFirst] using hx
  | cons y ys ih =>
    intro seen x hx
    rw [dedupFirst] at hx
    split at hx
    · exact List.mem_cons_of_mem _ (ih _ _ hx)
    · rcases List.mem_cons.mp hx with rfl | hx'
      · simp
      · exact List.mem_cons_of_mem _ (ih _ _ hx')

theorem replaceAll_nil (target repl : List Char) :
    replaceAll [] target repl = [] := by
  rw [replaceAll.eq_def]

theorem replaceAll_cons_pos (c : Char) (cs target repl : List Char)
    (h : target ≠ [] ∧ target.isPrefixOf (c :: cs)) :
    replaceAll (c :: cs) target repl =
      repl ++ replaceAll ((c :: cs).drop target.length) target repl := by
  rw [replaceAll.eq_def]
  dsimp only
  rw [if_pos h]

theorem replaceAll_cons_neg (c : Char) (cs target repl : List Char)
    (h : ¬ (target ≠ [] ∧ target.isPrefixOf (c :: cs))) :
    replaceAll (c :: cs) target repl = c :: replaceAll cs target repl := by
  rw [replaceAll.eq_def]
  dsimp only
  rw [if_neg h]

theorem replaceAll_append_of_no_match (B rest t r : List Char)
    (h : ∀ i, i < B.length → ¬ t.isPrefixOf (B.drop i ++ rest) = true) :
    replaceAll (B ++ rest) t r = B ++ replaceAll rest t r := by
  induction B with
  | nil => rfl
  | cons c B ih =>
    have h0 : ¬ t.isPrefixOf ((c :: B) ++ rest) = true := by
      have := h 0 (by simp)
      simpa using this
    rw [List.cons_append,
      replaceAll_cons_neg c (B ++ rest) t r (fun hh => h0 hh.2)]
    rw [ih (fun i hi => by
      have := h (i + 1) (by simpa using hi)
      simpa using this)]
    rfl

theorem brace_prefix_refuted (t' : List Char) (d : Char) (l : List Char)
    (hd : ¬ d = '{') : ¬ ('{' :: t').isPrefixOf (d :: l) = true := by
  show ¬ (('{' == d) && t'.isPrefixOf l) = true
  intro h
  rw [Bool.and_eq_true] at h
  exact hd (beq_iff_eq.mp h.1).symm

theorem no_match_in_lit (s rest t' : List Char) (hs : litOK s = true) :
    ∀ i, i < s.length → ¬ ('{' :: t').isPrefixOf (s.drop i ++ rest) = true := by
  intro i hi
  rw [List.drop_eq_getElem_cons hi, List.cons_append]
  refine brace_prefix_refuted _ _ _ ?_
  have hmem : s[i] ∈ s := List.getElem_mem hi
  unfold litOK at hs
  have := List.all_eq_true.mp hs _ hmem
  simp only [Bool.and_eq_true, decide_eq_true_eq] at this
  exact this.1

/-- Two distinct word names followed by `}}` never make one placeholder
literal a prefix of another placeholder's text. -/
theorem word_close_not_prefix (x : List Char) :
    ∀ (n rest : List Char), (∀ c ∈ x, isWordChar c = true) →
      (∀ c ∈ n, isWordChar c = true) → x ≠ n →
      ¬ (x ++ ['}', '}']).isPrefixOf (n ++ ('}' :: '}' :: rest)) = true := by
  induction x with
  | nil =>
    intro n rest _ hn hne
    cases n with
    | nil => exact absurd rfl hne
    | cons c cs =>
      have hc := hn c (by simp)
      have : ¬ c = '}' := by
        intro hcc
        rw [hcc] at hc
        exact absurd hc (by decide)
      show ¬ (('}' == c) && _) = true
      intro h
      rw [Bool.and_eq_true] at h
      exact this (beq_iff_eq.mp h.1).symm
  | cons a x ih =>
    intro n rest hx hn hne
    cases n with
    | nil =>
      have ha := hx a (by simp)
      have : ¬ a = '}' := by
        intro haa
        rw [haa] at ha
        exact absurd ha (by decide)
      show ¬ ((a == '}') && _) = true
      intro h
      rw [Bool.and_eq_true] at h
      exact this (beq_iff_eq.mp h.1)
    | cons b n' =>
      by_cases hab : a = b
      · subst hab
        have hih := ih n' rest (fun c hc => hx c (by simp [hc]))
          (fun c hc => hn c (by simp [hc]))
          (fun hh => hne (by rw [hh]))
        show ¬ ((a == a) && (x ++ ['}', '}']).isPrefixOf (n' ++ ('}' :: '}' :: rest))) = true
        intro h
        rw [Bool.and_eq_true] at h
        exact hih h.2
      · show ¬ ((a == b) && _) = true
        intro h
        rw [Bool.and_eq_true] at h
        exact hab (beq_iff_eq.mp h.1)

theorem toList_ne_of_ne (n x : String) (h : n ≠ x) : n.toList ≠ x.toList := by
  intro hh
  exact h (by rw [← stringMk_toList n, hh, stringMk_toList])

theorem no_match_in_ph (n x : String) (rest : List Char)
    (hn : nameOK n = true) (hx : nameOK x = true) (hne : n ≠ x) :
    ∀ i, i < (placeholderLit n).length →
      ¬ (placeholderLit x).isPrefixOf ((placeholderLit n).drop i ++ rest) = true := by
  intro i hi
  rcases i with _ | _ | i
  · have hshape : (placeholderLit n).drop 0 ++ rest =
        '{' :: '{' :: (n.toList ++ ('}' :: '}' :: rest)) := by
      simp [placeholderLit]
    rw [hshape]
    show ¬ ((x.toList ++ ['}', '}']).isPrefixOf
      (n.toList ++ ('}' :: '}' :: rest))) = true
    exact word_close_not_prefix x.toList n.toList rest
      (nameOK_toList_word x hx) (nameOK_toList_word n hn)
      (toList_ne_of_ne x n (fun hh => hne hh.symm))
  · obtain ⟨c0, w0, hcw⟩ := nameOK_toList_ne_nil n hn
    have hshape : (placeholderLit n).drop 1 ++ rest =
        '{' :: (c0 :: ((w0 ++ ['}', '}']) ++ rest)) := by
      show '{' :: ((n.toList ++ ['}', '}']) ++ rest) = _
      rw [hcw]
      simp
    rw [hshape]
    show ¬ (('{' :: (x.toList ++ ['}', '}'])).isPrefixOf
      (c0 :: ((w0 ++ ['}', '}']) ++ rest))) = true
    refine brace_prefix_refuted _ _ _ ?_
    have hc0 := nameOK_toList_word n hn c0 (by rw [hcw]; simp)
    intro hcc
    rw [hcc] at hc0
    exact absurd hc0 (by decide)
  · have hl4 : (placeholderLit n).length = n.toList.length + 4 := by
      simp only [placeholderLit, List.length_cons, List.length_append,
        List.length_nil]
    have hlen : i < (n.toList ++ ['}', '}']).length := by
      rw [hl4] at hi
      simp only [List.length_append, List.length_cons, List.length_nil]
      omega
    have hshape : (placeholderLit n).drop (i + 2) =
        (n.toList ++ ['}', '}']).drop i := rfl
    rw [hshape, List.drop_eq_getElem_cons hlen, List.cons_append]
    refine brace_prefix_refuted _ _ _ ?_
    have hmem : (n.toList ++ ['}', '}'])[i] ∈ n.toList ++ ['}', '}'] :=
      List.getElem_mem hlen
    rcases List.mem_append.mp hmem with hmw | hmb
    · have := nameOK_toList_word n hn _ hmw
      intro hcc
      rw [hcc] at this
      exact absurd this (by decide)
    · intro hcc
      rw [hcc] at hmb
      simp at hmb

theorem replaceAll_append_self (t z r : List Char) (ht : t ≠ []) :
    replaceAll (t ++ z) t r = r ++ replaceAll z t r := by
  cases t with
  | nil => exact absurd rfl ht
  | cons c cs =>
    rw [List.cons_append, replaceAll_cons_pos c (cs ++ z) (c :: cs) r
      ⟨ht, by
        rw [List.isPrefixOf_iff_prefix]
        exact List.prefix_append (c :: cs) z⟩]
    congr 1
    show replaceAll ((cs ++ z).drop cs.length) (c :: cs) r = replaceAll z (c :: cs) r
    rw [List.drop_left]

theorem replaceAll_render (ts : List QTok) (x : String) (r : List Char)
    (hts : toksOK ts = true) (hx : nameOK x = true) :
    replaceAll (renderT ts) (placeholderLit x) r =
      renderT (ts.map (substPh x r)) := by
  induction ts with
  | nil => exact replaceAll_nil _ _
  | cons t ts ih =>
    obtain ⟨h1, h2⟩ := toksOK_head t ts hts
    cases t with
    | lit s =>
      show replaceAll (s ++ renderT ts) (placeholderLit x) r =
        s ++ renderT (ts.map (substPh x r))
      rw [replaceAll_append_of_no_match s (renderT ts) (placeholderLit x) r
        (no_match_in_lit s (renderT ts) ('{' :: (x.toList ++ ['}', '}'])) h1),
        ih h2]
    | ph n =>
      by_cases hnx : n = x
      · subst hnx
        show replaceAll (placeholderLit n ++ renderT ts) (placeholderLit n) r =
          renderT ((QTok.ph n :: ts).map (substPh n r))
        rw [replaceAll_append_self (placeholderLit n) (renderT ts) r
          (by simp [placeholderLit])]
        rw [ih h2]
        have hsub : substPh n r (QTok.ph n) = QTok.lit r := by
          simp [substPh]
        rw [List.map_cons, hsub]
        rfl
      · show replaceAll (placeholderLit n ++ renderT ts) (placeholderLit x) r =
          renderT ((QTok.ph n :: ts).map (substPh x r))
        rw [replaceAll_append_of_no_match (placeholderLit n) (renderT ts)
          (placeholderLit x) r (no_match_in_ph n x (renderT ts) h1 hx hnx)]
        rw [ih h2]
        have hsub : substPh x r (QTok.ph n) = QTok.ph n := by
          simp [substPh, hnx]
        rw [List.map_cons, hsub]
        rfl

theorem toksOK_map_substPh (ts : List QTok) (x : String) (r : List Char)
    (hts : toksOK ts = true) (hr : litOK r = true) :
    toksOK (ts.map (substPh x r)) = true := by
  induction ts with
  | nil => rfl
  | cons t ts ih =>
    obtain ⟨h1, h2⟩ := toksOK_head t ts hts
    have htl := ih h2
    cases t with
    | lit s =>
      unfold toksOK at htl ⊢
      simp only [List.map_cons, List.all_cons, Bool.and_eq_true]
      exact ⟨by simpa [substPh] using h1, htl⟩
    | ph n =>
      unfold toksOK at htl ⊢
      simp only [List.map_cons, List.all_cons, Bool.and_eq_true]
      refine ⟨?_, htl⟩
      by_cases hnx : n = x
      · simp [substPh, hnx, tokOK, hr]
      · simpa [substPh, hnx] using h1

theorem digitChar_not_brace (m : Nat) :
    ¬ Nat.digitChar m = '{' ∧ ¬ Nat.digitChar m = '}' := by
  rcases Nat.lt_or_ge m 16 with h | h
  · interval_cases m <;> exact ⟨by decide, by decide⟩
  · have hstar : Nat.digitChar m = '*' := by
      unfold Nat.digitChar
      iterate 16 rw [if_neg (by omega)]
    rw [hstar]
    exact ⟨by decide, by decide⟩

theorem toDigitsCore_not_brace (b : Nat) (fuel : Nat) :
    ∀ (n : Nat) (acc : List Char),
      (∀ c ∈ acc, ¬ c = '{' ∧ ¬ c = '}') →
      ∀ c ∈ Nat.toDigitsCore b fuel n acc, ¬ c = '{' ∧ ¬ c = '}' := by
  induction fuel with
  | zero =>
    intro n acc hacc c hc
    exact hacc c (by simpa [Nat.toDigitsCore] using hc)
  | succ fuel ih =>
    intro n acc hacc c hc
    simp only [Nat.toDigitsCore] at hc
    split at hc
    · rcases List.mem_cons.mp hc with rfl | h
      · exact digitChar_not_brace _
      · exact hacc c h
    · refine ih _ _ ?_ c hc
      intro d hd
      rcases List.mem_cons.mp hd with rfl | h
      · exact digitChar_not_brace _
      · exact hacc d h

theorem dollarLit_litOK (k : Nat) : litOK (dollarLit k) = true := by
  unfold dollarLit litOK
  rw [List.all_cons, Bool.and_eq_true]
  constructor
  · decide
  · rw [List.all_eq_true]
    intro c hc
    have := toDigitsCore_not_brace 10 (k + 1) k [] (by simp) c hc
    simp only [Bool.and_eq_true, decide_eq_true_eq]
    exact this

theorem tokNames_nameOK (ts : List QTok) (hts : toksOK ts = true) :
    ∀ n ∈ tokNames ts, nameOK n = true := by
  induction ts with
  | nil => intro n hn; simp [tokNames] at hn
  | cons t ts ih =>
    obtain ⟨h1, h2⟩ := toksOK_head t ts hts
    intro n hn
    cases t with
    | lit s => exact ih h2 n hn
    | ph m =>
      rcases List.mem_cons.mp hn with rfl | h
      · exact h1
      · exact ih h2 n h

theorem substPhIdx_nil (i : Nat) (t : QTok) : substPhIdx [] i t = t := by
  cases t <;> rfl

theorem map_substPhIdx_nil (ts : List QTok) (i : Nat) :
    ts.map (substPhIdx [] i) = ts := by
  induction ts with
  | nil => rfl
  | cons t ts ih => rw [List.map_cons, substPhIdx_nil, ih]

theorem substPhIdx_cons (p : String) (ps : List String) (i : Nat) (t : QTok) :
    substPhIdx (p :: ps) i t =
      substPhIdx ps (i + 1) (substPh p (dollarLit (i + 1)) t) := by
  cases t with
  | lit s => rfl
  | ph n =>
    by_cases hnp : n = p
    · subst hnp
      simp [substPhIdx, nameIndex, substPh]
    · have hpn : ¬ p = n := fun h => hnp h.symm
      cases hni : nameIndex n ps with
      | none =>
        simp [substPhIdx, nameIndex, substPh, if_neg hnp, if_neg hpn, hni]
      | some k =>
        have harith : i + (k + 1) + 1 = i + 1 + k + 1 := by omega
        simp [substPhIdx, nameIndex, substPh, if_neg hnp, if_neg hpn, hni,
          harith]

theorem replaceNamedAux_render (ps : List String) :
    ∀ (i : Nat) (ts : List QTok), toksOK ts = true →
      (∀ p ∈ ps, nameOK p = true) →
      replaceNamedAux (renderT ts) ps i = renderT (ts.map (substPhIdx ps i)) := by
  induction ps with
  | nil =>
    intro i ts _ _
    rw [map_substPhIdx_nil]
    rfl
  | cons p ps ih =>
    intro i ts hts hps
    show replaceNamedAux
      (replaceAll (renderT ts) (placeholderLit p) (dollarLit (i + 1)))
      ps (i + 1) = _
    rw [replaceAll_render ts p (dollarLit (i + 1)) hts (hps p (by simp))]
    rw [ih (i + 1) (ts.map (substPh p (dollarLit (i + 1))))
      (toksOK_map_substPh ts p _ hts (dollarLit_litOK (i + 1)))
      (fun q hq => hps q (by simp [hq]))]
    rw [List.map_map]
    have hmap : List.map (substPhIdx ps (i + 1) ∘ substPh p (dollarLit (i + 1))) ts =
        List.map (substPhIdx (p :: ps) i) ts := by
      apply List.map_congr_left
      intro t _
      exact (substPhIdx_cons p ps i t).symm
    rw [hmap]

/-- **C3.** For every raw query text assembled from brace-free literal SQL
fragments and `{{name}}` placeholders, placeholder extraction returns the
distinct placeholder names in first-occurrence order (deduplicated, for an
*arbitrary* query text the result is always duplicate-free), and the
rewrite replaces every occurrence of the `k`-th extracted name (0-based)
with the same positional placeholder `$ (k+1)` — re-use, not renumbering.
Moreover the parameter-collection step returns the argument list in
extracted-name order: for a query extracting `[a, b]` with a permissive
two-parameter descriptor, the arguments are exactly `[value of a, value of
b]`. -/
theorem c3_raw_roundtrip :
    (∀ q : List Char, (ExtractNamedPlaceholders q).Nodup) ∧
    (∀ ts : List QTok, toksOK ts = true →
      ExtractNamedPlaceholders (renderT ts) = dedupFirst [] (tokNames ts) ∧
      ReplaceNamedWithDollarPlaceholders (renderT ts)
          (ExtractNamedPlaceholders (renderT ts)) =
        renderT (ts.map (substPhIdx (dedupFirst [] (tokNames ts)) 0))) ∧
    (∀ (sname f1 f2 : String) (va vb : GoVal),
      ValidateMapParamsAgainstStructNamed
        (StructType.mk sname [StructField.mk f1 "a" "a" GoType.anyInterface,
                              StructField.mk f2 "b" "b" GoType.anyInterface])
        [("a", some va), ("b", some vb)] ["a", "b"] =
        .ok [some va, some vb]) := by
  refine ⟨?_, ?_, ?_⟩
  · intro q
    exact (dedupFirst_nodup_aux (scanPlaceholders q) []).1
  · intro ts hts
    have hex : ExtractNamedPlaceholders (renderT ts) =
        dedupFirst [] (tokNames ts) := by
      unfold ExtractNamedPlaceholders
      rw [scan_render ts hts]
    refine ⟨hex, ?_⟩
    rw [hex]
    unfold ReplaceNamedWithDollarPlaceholders
    refine replaceNamedAux_render _ 0 ts hts ?_
    intro p hp
    exact tokNames_nameOK ts hts p (dedupFirst_subset _ _ _ hp)
  · intro sname f1 f2 va vb
    rfl

/-- **C3 witness.** The round trip on the concrete query
`SELECT id FROM t WHERE x = {{a}} AND y = {{b}} AND z = {{a}}`: extraction
yields `[a, b]` (deduplicated, first-occurrence order), the rewrite yields
`… x = $1 … y = $2 … z = $1` (re-use of `$1`, no renumbering), and the
argument list is `[value of a, value of b]`. -/
theorem c3_raw_roundtrip_witness :
    ExtractNamedPlaceholders
      "SELECT id FROM t WHERE x = {{a}} AND y = {{b}} AND z = {{a}}".toList =
      ["a", "b"] ∧
    ReplaceNamedWithDollarPlaceholders
      "SELECT id FROM t WHERE x = {{a}} AND y = {{b}} AND z = {{a}}".toList
      ["a", "b"] =
      "SELECT id FROM t WHERE x = $1 AND y = $2 AND z = $1".toList ∧
    ValidateMapParamsAgainstStructNamed
      (StructType.mk "P" [StructField.mk "A" "a" "a" GoType.anyInterface,
                          StructField.mk "B" "b" "b" GoType.anyInterface])
      [("a", some (GoVal.prim GoType.int64)),
       ("b", some (GoVal.prim GoType.string))] ["a", "b"] =
      .ok [some (GoVal.prim GoType.int64), some (GoVal.prim GoType.string)] := by
  have h := c3_raw_roundtrip.2.1
    [QTok.lit "SELECT id FROM t WHERE x = ".toList, QTok.ph "a",
     QTok.lit " AND y = ".toList, QTok.ph "b",
     QTok.lit " AND z = ".toList, QTok.ph "a"] (by decide)
  obtain ⟨h1, h2⟩ := h
  have hq : renderT
      [QTok.lit "SELECT id FROM t WHERE x = ".toList, QTok.ph "a",
       QTok.lit " AND y = ".toList, QTok.ph "b",
       QTok.lit " AND z = ".toList, QTok.ph "a"] =
      "SELECT id FROM t WHERE x = {{a}} AND y = {{b}} AND z = {{a}}".toList := by
    decide
  have hdedup : dedupFirst [] (tokNames
      [QTok.lit "SELECT id FROM t WHERE x = ".toList, QTok.ph "a",
       QTok.lit " AND y = ".toList, QTok.ph "b",
       QTok.lit " AND z = ".toList, QTok.ph "a"]) = ["a", "b"] := by
    decide
  refine ⟨?_, ?_, c3_raw_roundtrip.2.2 "P" "A" "B" _ _⟩
  · rw [← hq, h1, hdedup]
  · have hext : ExtractNamedPlaceholders
        (renderT
          [QTok.lit "SELECT id FROM t WHERE x = ".toList, QTok.ph "a",
           QTok.lit " AND y = ".toList, QTok.ph "b",
           QTok.lit " AND z = ".toList, QTok.ph "a"]) = ["a", "b"] := by
      rw [h1]
      exact hdedup
    rw [← hq, ← hext, h2]
    decide

end Sqld
